import Mathlib

/-!
mackerel-plugin-fluentd-monitor: metric extraction and shaping.

A shallow embedding of `main.go`: the plugin-status record, the eligibility
predicate `isEnableFluentMetric`, the projection `Plugin.FetchMetrics` and the
schema builder `Plugin.GraphDefinition`, followed by the theorems about them.

Go values are embedded as follows.

* `string` is `String`, a sequence of characters, and `+` on strings is `++`.
  Go strings are byte sequences; the ids of a snapshot are decoded from JSON
  and hence valid UTF-8, on which the byte-wise and the character-wise
  reading of concatenation, equality and `strings.HasPrefix` agree.
* `int64` is `Int` (the program does no arithmetic on these fields).
* `error` is `Option GoError`, `none` being the nil error.
* `map[string]V` is `GoMap V`, a key/value list without repeated keys in which
  an assignment `m[k] = v` overwrites the entry of `k` in place or appends a
  new one; a nil map is `none : Option (GoMap V)`.
* a slice is a `List`, `append(s, x)` is `s ++ [x]`, and `for _, x := range s`
  is a left fold over the list; the nil slice is `[]`.
* the three library calls of `fetchFluentMetrics` (`http.Get`, `ioutil.ReadAll`,
  `json.Unmarshal`) are fields of a value of type `Stages`, each returning
  `Except GoError _`; `unmarshalFluentMetrics` is the decoder of
  `encoding/json` for the declared type `FluentMetrics`: the scanner of the
  library over the text of the body, then the decode of the value by the
  declared types.
-/

namespace FluentdMonitor

/-! ## Go runtime values -/

/-- A non-nil Go `error`, identified by its message. -/
structure GoError where
  msg : String
  deriving DecidableEq, Repr

/-- A Go `float64` that denotes an integer, represented by that integer. Every
`float64` this program builds is the conversion of an `int64`, hence of this
kind. -/
structure Float64 where
  toInt : Int
  deriving DecidableEq, Repr

/-- The Go conversion `float64(x)` of an `int64`: exact below `2^53` in
absolute value, otherwise rounded to 53 significant bits, to nearest and ties
to even. -/
def float64 (x : Int) : Float64 :=
  let a := x.natAbs
  if a < 2 ^ 53 then ⟨x⟩
  else
    let e := Nat.log2 a - 52
    let q := a / 2 ^ e
    let r := a % 2 ^ e
    let q1 := if 2 ^ e < 2 * r ∨ (2 * r = 2 ^ e ∧ q % 2 = 1) then q + 1 else q
    ⟨Int.sign x * ((q1 * 2 ^ e : Nat) : Int)⟩

/-- A Go `map[string]V`: its entries, no key occurring twice. -/
structure GoMap (V : Type) where
  entries : List (String × V)
  deriving DecidableEq, Repr

namespace GoMap

variable {V : Type}

/-- The assignment `m[k] = v` on the entry list. -/
def setEntries : List (String × V) → String → V → List (String × V)
  | [], k, v => [(k, v)]
  | (k1, v1) :: rest, k, v =>
    if k1 = k then (k, v) :: rest else (k1, v1) :: setEntries rest k v

/-- The fresh map `make(map[string]V)`. -/
def empty : GoMap V := ⟨[]⟩

/-- The assignment `m[k] = v`. -/
def set (m : GoMap V) (k : String) (v : V) : GoMap V := ⟨setEntries m.entries k v⟩

/-- The lookup `v, ok := m[k]`. -/
def get (m : GoMap V) (k : String) : Option V :=
  (m.entries.find? (fun e => e.1 = k)).map (fun e => e.2)

/-- The keys of the map. -/
def keys (m : GoMap V) : List String := m.entries.map (fun e => e.1)

/-- The number of entries, `len(m)`. -/
def len (m : GoMap V) : Nat := m.entries.length

end GoMap

/-- The library function `strings.HasPrefix`:
`len(s) >= len(prefix) && s[:len(prefix)] == prefix`. -/
def HasPrefix (s pre : String) : Bool :=
  decide (pre.length ≤ s.length) && (s.data.take pre.length == pre.data)

/-! ## Data model -/

/-- One entry of the `plugins` array of the monitor agent. -/
structure FluentMetric where
  Id : String
  Category : String
  Type_ : String
  Config : List (String × String)
  Output : Bool
  RetryCount : Int
  BufferQueueLength : Int
  BufferTotalQueuedSize : Int
  deriving DecidableEq, Repr

/-- The plugin value: the target URL, the fetched snapshot and the stored
fetch error. -/
structure Plugin where
  Target : String
  Metrics : List FluentMetric
  Err : Option GoError
  deriving DecidableEq, Repr

/-- Modelled from the spec: the sub-metric descriptor type `mp.Metrics` of the
go-mackerel-plugin library, whose declaration is outside this repository; the
spec gives a descriptor as `{name, label, isCumulativeDiff}`. -/
structure MpMetrics where
  Name : String
  Label : String
  Diff : Bool
  deriving DecidableEq, Repr

/-- Modelled from the spec: the graph type `mp.Graphs` of the
go-mackerel-plugin library, whose declaration is outside this repository; the
spec gives a graph as a display label and an ordered sequence of sub-metric
descriptors. -/
structure MpGraphs where
  Label : String
  Metrics : List MpMetrics
  deriving DecidableEq, Repr

/-! ## Operations -/

/-- The eligibility predicate of `main.go`. -/
def isEnableFluentMetric (m : FluentMetric) : Bool :=
  if !m.Output then false
  else if HasPrefix m.Id "object:" then false
  else true

/-- The body of the loop of `FetchMetrics`, for one record. -/
def fetchStep (results : GoMap Float64) (metric : FluentMetric) : GoMap Float64 :=
  if isEnableFluentMetric metric then
    let results := results.set ("retry." ++ metric.Id) (float64 metric.RetryCount)
    let results := results.set ("queue." ++ metric.Id) (float64 metric.BufferQueueLength)
    results.set ("size." ++ metric.Id) (float64 metric.BufferTotalQueuedSize)
  else results

/-- The method `Plugin.FetchMetrics`: the returned pair of map and error. -/
def FetchMetrics (p : Plugin) : Option (GoMap Float64) × Option GoError :=
  match p.Err with
  | some err => (none, some err)
  | none =>
    let results := p.Metrics.foldl fetchStep GoMap.empty
    (some results, none)

/-- The body of the loop of `GraphDefinition`, for one record. -/
def graphStep (metrics : List MpMetrics) (metric : FluentMetric) : List MpMetrics :=
  if isEnableFluentMetric metric then
    let metrics := metrics ++ [{ Name := "retry." ++ metric.Id,
                                 Label := "Retry Count " ++ metric.Id, Diff := false }]
    let metrics := metrics ++ [{ Name := "queue." ++ metric.Id,
                                 Label := "Queue Length " ++ metric.Id, Diff := false }]
    metrics ++ [{ Name := "size." ++ metric.Id,
                  Label := "Buffer Size " ++ metric.Id, Diff := false }]
  else metrics

/-- The method `Plugin.GraphDefinition`. -/
def GraphDefinition (p : Plugin) : GoMap MpGraphs :=
  let metrics := p.Metrics.foldl graphStep []
  let graphs : GoMap MpGraphs := GoMap.empty
  graphs.set "fluentd.buffer" { Label := "Fluentd Buffer", Metrics := metrics }

/-! ## The fetch -/

/-- The declared type `FluentMetrics`: the decoded response document. -/
structure FluentMetrics where
  Metrics : List FluentMetric
  deriving DecidableEq, Repr

/-- The fields of the library type `http.Response` that matter here: the
status code and the stream of the body. -/
structure Response (Stream : Type) where
  StatusCode : Int
  Body : Stream

/-- The three library calls of `fetchFluentMetrics`: `http.Get(url)`,
`ioutil.ReadAll(stream)` and `json.Unmarshal(body, &metrics)`, the last one
given the value `metrics` holds before the call and returning the value it
holds afterwards. -/
structure Stages (Stream Bytes : Type) where
  httpGet : String → Except GoError (Response Stream)
  readAll : Stream → Except GoError Bytes
  jsonUnmarshal : Bytes → FluentMetrics → Except GoError FluentMetrics

/-- The method `Plugin.fetchFluentMetrics`: the returned pair of records and
error. -/
def fetchFluentMetrics {Stream Bytes : Type} (s : Stages Stream Bytes) (p : Plugin) :
    List FluentMetric × Option GoError :=
  match s.httpGet p.Target with
  | .error err => ([], some err)
  | .ok resp =>
    match s.readAll resp.Body with
    | .error err => ([], some err)
    | .ok body =>
      match s.jsonUnmarshal body { Metrics := [] } with
      | .error err => ([], some err)
      | .ok metrics => (metrics.Metrics, none)

/-- The method `Plugin.Prepare`: the plugin after the call. -/
def Prepare {Stream Bytes : Type} (s : Stages Stream Bytes) (p : Plugin) : Plugin :=
  let r := fetchFluentMetrics s p
  { p with Metrics := r.1, Err := r.2 }

/-- Modelled from the spec: the helper methods `OutputDefinitions` and
`OutputValues` of the go-mackerel-plugin library, which are outside this
repository; by the spec, definitions mode serialises the result of the schema
builder and values mode the result of the projector. The value records what
`main` has the helper write to standard output. -/
inductive Emission where
  | definitions (graphs : GoMap MpGraphs) : Emission
  | values (result : Option (GoMap Float64) × Option GoError) : Emission
  deriving DecidableEq, Repr

/-- The URL `fmt.Sprintf("http://%s:%d/api/plugins.json", host, port)`. -/
def targetURL (host : String) (port : Int) : String :=
  "http://" ++ host ++ ":" ++ toString port ++ "/api/plugins.json"

/-- The function `main`, from the parsed flags `host` and `port` and the value
`metaEnv` of the environment variable `MACKEREL_AGENT_PLUGIN_META`: which
output the helper is asked for. The temp file name does not enter it. -/
def main {Stream Bytes : Type} (s : Stages Stream Bytes) (host : String) (port : Int)
    (metaEnv : String) : Emission :=
  let plugin : Plugin := { Target := targetURL host port, Metrics := [], Err := none }
  let plugin := Prepare s plugin
  if metaEnv ≠ "" then Emission.definitions (GraphDefinition plugin)
  else Emission.values (FetchMetrics plugin)

/-! ## The JSON decoder

`json.Unmarshal(body, &metrics)` of the library `encoding/json`, for the
declared types `FluentMetrics` and `FluentMetric` and their field tags.

The library first checks the syntax of the whole body with its scanner, a
state machine that reads the body one character at a time and keeps a stack
of the open arrays and objects; `step` is that machine, extended to build
the value it reads. A body is a `String`, a sequence of characters (bodies
that are not valid UTF-8 are outside the embedding). Arrays and objects
nest at most `maxNestingDepth` deep.

The library then decodes the value by the type of the variable it decodes
into: `null` leaves a string, boolean, integer or struct as it is and makes
a slice or map nil; an object member is matched to the field whose tag
equals its name, also up to case; members without a field are skipped; an
array element is decoded into the element the slice already holds at that
index, also one an earlier decode left in the backing array beyond the
length of the slice; a value of the wrong kind for its variable is an error.
The library records the first such error, goes on decoding and returns the
error at the end; as `fetchFluentMetrics` drops the decoded value when an
error is returned, the decode functions stop at the first error. They
return `none` for an error: the error value itself, with the text the
library gives it, is the parameter `errorOf` of `unmarshalFluentMetrics`. -/

/-- The value a syntactically valid JSON text denotes. A number literal without
fraction and exponent is `int`, any other number literal is `frac` and keeps
its text. -/
inductive Json where
  | null : Json
  | bool (b : Bool) : Json
  | int (n : Int) : Json
  | frac (lit : String) : Json
  | str (s : String) : Json
  | arr (items : List Json) : Json
  | obj (members : List (String × Json)) : Json

/-- One unit of a string literal: a character, or the number of a `\uXXXX`
escape. -/
inductive StrUnit where
  | chr (c : Char) : StrUnit
  | esc (n : Nat) : StrUnit

/-- The first half of a UTF-16 surrogate pair. -/
def isHighSurrogate (n : Nat) : Bool := decide (0xD800 ≤ n) && decide (n < 0xDC00)

/-- The second half of a UTF-16 surrogate pair. -/
def isLowSurrogate (n : Nat) : Bool := decide (0xDC00 ≤ n) && decide (n < 0xE000)

/-- The characters of a string literal, given the high surrogate escape that
was read last, if any: a high surrogate escape directly followed by a low one
is one character, any other surrogate escape is the replacement character
`U+FFFD`. -/
def unquoteFrom : Option Nat → List StrUnit → List Char
  | none, [] => []
  | some _, [] => [Char.ofNat 0xFFFD]
  | none, .chr c :: rest => c :: unquoteFrom none rest
  | some _, .chr c :: rest => Char.ofNat 0xFFFD :: c :: unquoteFrom none rest
  | none, .esc n :: rest =>
    if isHighSurrogate n then unquoteFrom (some n) rest
    else if isLowSurrogate n then Char.ofNat 0xFFFD :: unquoteFrom none rest
    else Char.ofNat n :: unquoteFrom none rest
  | some hi, .esc n :: rest =>
    if isLowSurrogate n then
      Char.ofNat (0x10000 + (hi - 0xD800) * 0x400 + (n - 0xDC00)) :: unquoteFrom none rest
    else if isHighSurrogate n then Char.ofNat 0xFFFD :: unquoteFrom (some n) rest
    else Char.ofNat 0xFFFD :: Char.ofNat n :: unquoteFrom none rest

/-- The characters a string literal denotes. -/
def unquote (units : List StrUnit) : List Char := unquoteFrom none units

/-- An open array with the elements read so far, or an open object with the
members read so far and the name of the member being read; the latest first. -/
inductive Frame where
  | arr (items : List Json) : Frame
  | obj (members : List (String × Json)) (key : Option String) : Frame

/-- The states of the scanner inside a number literal: after the sign, after a
leading zero, in the integer digits, after the point, in the fraction digits,
after the `e`, after the sign of the exponent, in the exponent digits. -/
inductive NumState where
  | neg : NumState
  | zero : NumState
  | int : NumState
  | dot : NumState
  | frac : NumState
  | exp : NumState
  | expSign : NumState
  | expDigits : NumState

/-- The states of the scanner. -/
inductive Mode where
  | beginValue : Mode
  | beginValueOrEmpty : Mode
  | beginStringOrEmpty : Mode
  | beginString : Mode
  | afterKey : Mode
  | afterArrayValue : Mode
  | afterObjectValue : Mode
  | inString (isKey : Bool) (units : List StrUnit) : Mode
  | inStringEsc (isKey : Bool) (units : List StrUnit) : Mode
  | inStringU (isKey : Bool) (units : List StrUnit) (count : Nat) (acc : Nat) : Mode
  | inNumber (st : NumState) (lit : List Char) : Mode
  | inLiteral (rest : List Char) (v : Json) : Mode
  | endTop (v : Json) : Mode
  | invalid : Mode

/-- The scanner: its state and the stack of open arrays and objects. -/
structure Scanner where
  mode : Mode
  stack : List Frame

/-- The scanner after a syntax error. -/
def Scanner.failed : Scanner := ⟨.invalid, []⟩

/-- The constant `maxNestingDepth` of the scanner. -/
def maxNestingDepth : Nat := 10000

/-- The function `isSpace` of the scanner. -/
def isSpace (c : Char) : Bool := c = ' ' || c = '\t' || c = '\r' || c = '\n'

/-- The value of a hexadecimal digit. -/
def hexVal (c : Char) : Option Nat :=
  if '0' ≤ c ∧ c ≤ '9' then some (c.toNat - 48)
  else if 'a' ≤ c ∧ c ≤ 'f' then some (c.toNat - 87)
  else if 'A' ≤ c ∧ c ≤ 'F' then some (c.toNat - 55)
  else none

/-- A value is complete: it is the top-level value, the next element of the
open array or the value of the open member. -/
def endValue (v : Json) (stack : List Frame) : Scanner :=
  match stack with
  | [] => ⟨.endTop v, []⟩
  | .arr items :: rest => ⟨.afterArrayValue, .arr (v :: items) :: rest⟩
  | .obj members (some k) :: rest => ⟨.afterObjectValue, .obj ((k, v) :: members) none :: rest⟩
  | .obj _ none :: _ => Scanner.failed

/-- The name of a member is complete. -/
def endKey (k : String) (stack : List Frame) : Scanner :=
  match stack with
  | .obj members none :: rest => ⟨.afterKey, .obj members (some k) :: rest⟩
  | _ => Scanner.failed

/-- The function `pushParseState` of the scanner: opening an array or object. -/
def pushFrame (f : Frame) (m : Mode) (stack : List Frame) : Scanner :=
  if stack.length < maxNestingDepth then ⟨m, f :: stack⟩ else Scanner.failed

/-- The state `stateBeginValue` of the scanner. -/
def stepBeginValue (stack : List Frame) (c : Char) : Scanner :=
  if isSpace c then ⟨.beginValue, stack⟩
  else if c = '{' then pushFrame (.obj [] none) .beginStringOrEmpty stack
  else if c = '[' then pushFrame (.arr []) .beginValueOrEmpty stack
  else if c = '"' then ⟨.inString false [], stack⟩
  else if c = '-' then ⟨.inNumber .neg [c], stack⟩
  else if c = '0' then ⟨.inNumber .zero [c], stack⟩
  else if c = 't' then ⟨.inLiteral ['r', 'u', 'e'] (.bool true), stack⟩
  else if c = 'f' then ⟨.inLiteral ['a', 'l', 's', 'e'] (.bool false), stack⟩
  else if c = 'n' then ⟨.inLiteral ['u', 'l', 'l'] .null, stack⟩
  else if '1' ≤ c ∧ c ≤ '9' then ⟨.inNumber .int [c], stack⟩
  else Scanner.failed

/-- The state `stateBeginString` of the scanner. -/
def stepBeginString (stack : List Frame) (c : Char) : Scanner :=
  if isSpace c then ⟨.beginString, stack⟩
  else if c = '"' then ⟨.inString true [], stack⟩
  else Scanner.failed

/-- The states `stateEndValue` and `stateEndTop` of the scanner. -/
def stepEndValue (s : Scanner) (c : Char) : Scanner :=
  match s.mode, s.stack with
  | .endTop _, _ => if isSpace c then s else Scanner.failed
  | .afterKey, stack =>
    if isSpace c then s else if c = ':' then ⟨.beginValue, stack⟩ else Scanner.failed
  | .afterArrayValue, .arr items :: rest =>
    if isSpace c then s
    else if c = ',' then ⟨.beginValue, .arr items :: rest⟩
    else if c = ']' then endValue (.arr items.reverse) rest
    else Scanner.failed
  | .afterObjectValue, .obj members none :: rest =>
    if isSpace c then s
    else if c = ',' then ⟨.beginString, .obj members none :: rest⟩
    else if c = '}' then endValue (.obj members.reverse) rest
    else Scanner.failed
  | _, _ => Scanner.failed

/-- The number a sequence of decimal digits denotes. -/
def intOfDigits (cs : List Char) : Nat := cs.foldl (fun n c => 10 * n + (c.toNat - 48)) 0

/-- The integer an integer literal denotes. -/
def intOfLiteral (lit : List Char) : Int :=
  match lit with
  | '-' :: digits => -((intOfDigits digits : Nat) : Int)
  | digits => ((intOfDigits digits : Nat) : Int)

/-- The value of a number literal that ends in the state `st`, if it may end
there. -/
def numberValue (st : NumState) (lit : List Char) : Option Json :=
  match st with
  | .zero => some (.int (intOfLiteral lit))
  | .int => some (.int (intOfLiteral lit))
  | .frac => some (.frac ⟨lit⟩)
  | .expDigits => some (.frac ⟨lit⟩)
  | _ => none

/-- A number literal ends before the character `c`. -/
def endNumber (stack : List Frame) (st : NumState) (lit : List Char) (c : Char) : Scanner :=
  match numberValue st lit.reverse with
  | some v => stepEndValue (endValue v stack) c
  | none => Scanner.failed

/-- The states `stateNeg`, `state1`, `state0`, `stateDot`, `stateDot0`,
`stateE`, `stateESign` and `stateE0` of the scanner. -/
def stepNumber (stack : List Frame) (st : NumState) (lit : List Char) (c : Char) : Scanner :=
  match st with
  | .neg =>
    if c = '0' then ⟨.inNumber .zero (c :: lit), stack⟩
    else if '1' ≤ c ∧ c ≤ '9' then ⟨.inNumber .int (c :: lit), stack⟩
    else Scanner.failed
  | .int =>
    if '0' ≤ c ∧ c ≤ '9' then ⟨.inNumber .int (c :: lit), stack⟩
    else if c = '.' then ⟨.inNumber .dot (c :: lit), stack⟩
    else if c = 'e' ∨ c = 'E' then ⟨.inNumber .exp (c :: lit), stack⟩
    else endNumber stack st lit c
  | .zero =>
    if c = '.' then ⟨.inNumber .dot (c :: lit), stack⟩
    else if c = 'e' ∨ c = 'E' then ⟨.inNumber .exp (c :: lit), stack⟩
    else endNumber stack st lit c
  | .dot =>
    if '0' ≤ c ∧ c ≤ '9' then ⟨.inNumber .frac (c :: lit), stack⟩ else Scanner.failed
  | .frac =>
    if '0' ≤ c ∧ c ≤ '9' then ⟨.inNumber .frac (c :: lit), stack⟩
    else if c = 'e' ∨ c = 'E' then ⟨.inNumber .exp (c :: lit), stack⟩
    else endNumber stack st lit c
  | .exp =>
    if c = '+' ∨ c = '-' then ⟨.inNumber .expSign (c :: lit), stack⟩
    else if '0' ≤ c ∧ c ≤ '9' then ⟨.inNumber .expDigits (c :: lit), stack⟩
    else Scanner.failed
  | .expSign =>
    if '0' ≤ c ∧ c ≤ '9' then ⟨.inNumber .expDigits (c :: lit), stack⟩ else Scanner.failed
  | .expDigits =>
    if '0' ≤ c ∧ c ≤ '9' then ⟨.inNumber .expDigits (c :: lit), stack⟩
    else endNumber stack st lit c

/-- A string literal ends: it is the name of a member or a value. -/
def endString (isKey : Bool) (units : List StrUnit) (stack : List Frame) : Scanner :=
  if isKey then endKey ⟨unquote units.reverse⟩ stack
  else endValue (.str ⟨unquote units.reverse⟩) stack

/-- The state `stateInStringEsc` of the scanner. -/
def stepEscape (isKey : Bool) (units : List StrUnit) (stack : List Frame) (c : Char) :
    Scanner :=
  if c = 'b' then ⟨.inString isKey (.chr (Char.ofNat 8) :: units), stack⟩
  else if c = 'f' then ⟨.inString isKey (.chr (Char.ofNat 12) :: units), stack⟩
  else if c = 'n' then ⟨.inString isKey (.chr '\n' :: units), stack⟩
  else if c = 'r' then ⟨.inString isKey (.chr '\r' :: units), stack⟩
  else if c = 't' then ⟨.inString isKey (.chr '\t' :: units), stack⟩
  else if c = '\\' ∨ c = '/' ∨ c = '"' then ⟨.inString isKey (.chr c :: units), stack⟩
  else if c = 'u' then ⟨.inStringU isKey units 0 0, stack⟩
  else Scanner.failed

/-- One step of the scanner, on the character `c`. -/
def step (s : Scanner) (c : Char) : Scanner :=
  match s.mode with
  | .beginValue => stepBeginValue s.stack c
  | .beginValueOrEmpty =>
    if isSpace c then s
    else if c = ']' then
      match s.stack with
      | .arr _ :: rest => endValue (.arr []) rest
      | _ => Scanner.failed
    else stepBeginValue s.stack c
  | .beginStringOrEmpty =>
    if isSpace c then s
    else if c = '}' then
      match s.stack with
      | .obj _ _ :: rest => endValue (.obj []) rest
      | _ => Scanner.failed
    else stepBeginString s.stack c
  | .beginString => stepBeginString s.stack c
  | .inString isKey units =>
    if c = '"' then endString isKey units s.stack
    else if c = '\\' then ⟨.inStringEsc isKey units, s.stack⟩
    else if c.toNat < 0x20 then Scanner.failed
    else ⟨.inString isKey (.chr c :: units), s.stack⟩
  | .inStringEsc isKey units => stepEscape isKey units s.stack c
  | .inStringU isKey units count acc =>
    match hexVal c with
    | none => Scanner.failed
    | some d =>
      if count < 3 then ⟨.inStringU isKey units (count + 1) (16 * acc + d), s.stack⟩
      else ⟨.inString isKey (.esc (16 * acc + d) :: units), s.stack⟩
  | .inNumber st lit => stepNumber s.stack st lit c
  | .inLiteral rest v =>
    match rest with
    | [] => Scanner.failed
    | x :: more =>
      if c = x then
        match more with
        | [] => endValue v s.stack
        | _ => ⟨.inLiteral more v, s.stack⟩
      else Scanner.failed
  | .invalid => s
  | _ => stepEndValue s c

/-- The method `eof` of the scanner: the value read, when the body ends after a
complete top-level value. -/
def scanEnd (s : Scanner) : Option Json :=
  match s.mode, s.stack with
  | .endTop v, _ => some v
  | .inNumber st lit, [] => numberValue st lit.reverse
  | _, _ => none

/-- The value the body denotes, or `none` when the body is not valid JSON. -/
def parseJson (body : String) : Option Json :=
  scanEnd (body.data.foldl step ⟨.beginValue, []⟩)

/-- Case folding of one character of a member name: the characters that fold
to an ASCII letter are its two cases, the Kelvin sign for `k` and the long s
for `s`. -/
def foldRune (c : Char) : Char :=
  if c = Char.ofNat 0x212A then 'k'
  else if c = Char.ofNat 0x017F then 's'
  else c.toLower

/-- The member name `key` selects the field tagged `tag` (a lower-case ASCII
tag): equal, or equal up to case. -/
def matchesTag (key tag : String) : Bool :=
  key.data.map foldRune == tag.data

/-- Decoding the members of an object in order, from the current value. -/
def decodeMembers {α : Type} (decode : α → String → Json → Option α) :
    α → List (String × Json) → Option α
  | cur, [] => some cur
  | cur, (k, v) :: rest =>
    match decode cur k v with
    | none => none
    | some next => decodeMembers decode next rest

/-- Decoding into a `string` variable holding `cur`. -/
def decodeString (cur : String) (v : Json) : Option String :=
  match v with
  | .null => some cur
  | .str s => some s
  | _ => none

/-- Decoding into a `bool` variable holding `cur`. -/
def decodeBool (cur : Bool) (v : Json) : Option Bool :=
  match v with
  | .null => some cur
  | .bool b => some b
  | _ => none

/-- Decoding into an `int64` variable holding `cur`: an integer literal within
the range of `int64`. -/
def decodeInt64 (cur : Int) (v : Json) : Option Int :=
  match v with
  | .null => some cur
  | .int n => if -(2 ^ 63) ≤ n ∧ n < 2 ^ 63 then some n else none
  | _ => none

/-- Decoding into a `map[string]string` variable holding `cur`. -/
def decodeStringMap (cur : List (String × String)) (v : Json) :
    Option (List (String × String)) :=
  match v with
  | .null => some []
  | .obj members =>
    decodeMembers (fun m k x =>
      match decodeString "" x with
      | none => none
      | some elem => some (GoMap.setEntries m k elem)) cur members
  | _ => none

/-- The zero value of `FluentMetric`. -/
def zeroFluentMetric : FluentMetric :=
  { Id := "", Category := "", Type_ := "", Config := [], Output := false,
    RetryCount := 0, BufferQueueLength := 0, BufferTotalQueuedSize := 0 }

/-- One member of a record object, decoded into the field its name selects. -/
def decodeField (cur : FluentMetric) (key : String) (v : Json) : Option FluentMetric :=
  if matchesTag key "plugin_id" then
    (decodeString cur.Id v).map (fun x => { cur with Id := x })
  else if matchesTag key "plugin_category" then
    (decodeString cur.Category v).map (fun x => { cur with Category := x })
  else if matchesTag key "type" then
    (decodeString cur.Type_ v).map (fun x => { cur with Type_ := x })
  else if matchesTag key "config" then
    (decodeStringMap cur.Config v).map (fun x => { cur with Config := x })
  else if matchesTag key "output_plugin" then
    (decodeBool cur.Output v).map (fun x => { cur with Output := x })
  else if matchesTag key "retry_count" then
    (decodeInt64 cur.RetryCount v).map (fun x => { cur with RetryCount := x })
  else if matchesTag key "buffer_queue_length" then
    (decodeInt64 cur.BufferQueueLength v).map (fun x => { cur with BufferQueueLength := x })
  else if matchesTag key "buffer_total_queued_size" then
    (decodeInt64 cur.BufferTotalQueuedSize v).map
      (fun x => { cur with BufferTotalQueuedSize := x })
  else some cur

/-- Decoding into a `FluentMetric` variable holding `cur`. -/
def decodeFluentMetric (cur : FluentMetric) (v : Json) : Option FluentMetric :=
  match v with
  | .null => some cur
  | .obj members => decodeMembers decodeField cur members
  | _ => none

/-- A `[]FluentMetric` variable during the decode: its elements, and the
elements that earlier decodes left in its backing array beyond its length. -/
structure SliceVar where
  elems : List FluentMetric
  spare : List FluentMetric
  deriving DecidableEq, Repr

/-- Decoding the elements of a non-empty array in order, each into the element
the backing array `slots` holds at its index, or into a zero element where
the backing array ends; the elements of the backing array that are left over
stay beyond the new length. -/
def decodeItems : List FluentMetric → List Json → Option SliceVar
  | slots, [] => some { elems := [], spare := slots }
  | slots, v :: rest =>
    match decodeFluentMetric (slots.headD zeroFluentMetric) v with
    | none => none
    | some r =>
      match decodeItems slots.tail rest with
      | none => none
      | some sv => some { elems := r :: sv.elems, spare := sv.spare }

/-- Decoding into a `[]FluentMetric` variable holding `cur`: `null` makes it
nil, the empty array makes it a fresh empty slice. -/
def decodeSlice (cur : SliceVar) (v : Json) : Option SliceVar :=
  match v with
  | .null => some { elems := [], spare := [] }
  | .arr [] => some { elems := [], spare := [] }
  | .arr items => decodeItems (cur.elems ++ cur.spare) items
  | _ => none

/-- One member of the document object: `plugins` is the only field. -/
def decodeDocumentField (cur : SliceVar) (key : String) (v : Json) : Option SliceVar :=
  if matchesTag key "plugins" then decodeSlice cur v else some cur

/-- Decoding into a `FluentMetrics` variable whose field `Metrics` holds `cur`. -/
def decodeFluentMetrics (cur : SliceVar) (v : Json) : Option SliceVar :=
  match v with
  | .null => some cur
  | .obj members => decodeMembers decodeDocumentField cur members
  | _ => none

/-- The call `json.Unmarshal(body, &metrics)` with `metrics` of type
`FluentMetrics` holding `cur`, its slice without spare elements, as the zero
value `fetchFluentMetrics` passes is. `errorOf body` is the error the library
returns when it rejects `body`. -/
def unmarshalFluentMetrics (errorOf : String → GoError) (body : String)
    (cur : FluentMetrics) : Except GoError FluentMetrics :=
  match parseJson body with
  | none => .error (errorOf body)
  | some v =>
    match decodeFluentMetrics { elems := cur.Metrics, spare := [] } v with
    | none => .error (errorOf body)
    | some sv => .ok { Metrics := sv.elems }

/-! ## Vocabulary of the statements -/

/-- The three descriptors the schema holds for one record, in order. -/
def descriptorsOf (r : FluentMetric) : List MpMetrics :=
  [ { Name := "retry." ++ r.Id, Label := "Retry Count " ++ r.Id, Diff := false },
    { Name := "queue." ++ r.Id, Label := "Queue Length " ++ r.Id, Diff := false },
    { Name := "size." ++ r.Id, Label := "Buffer Size " ++ r.Id, Diff := false } ]

/-- The three keys the projection writes for one record. -/
def keysOf (r : FluentMetric) : List String :=
  ["retry." ++ r.Id, "queue." ++ r.Id, "size." ++ r.Id]

/-- The snapshot of the scenario of the spec: one reportable output plugin and
one anonymous buffer object, no fetch error. -/
def scenarioPlugin : Plugin :=
  { Target := "http://localhost:24220/api/plugins.json",
    Metrics :=
      [ { Id := "out1", Category := "", Type_ := "", Config := [], Output := true,
          RetryCount := 2, BufferQueueLength := 5, BufferTotalQueuedSize := 1024 },
        { Id := "object:abc", Category := "", Type_ := "", Config := [], Output := true,
          RetryCount := 9, BufferQueueLength := 0, BufferTotalQueuedSize := 0 } ],
    Err := none }

/-- A snapshot in which the id `out1` is reported twice. -/
def duplicatePlugin : Plugin :=
  { Target := "http://localhost:24220/api/plugins.json",
    Metrics :=
      [ { Id := "out1", Category := "", Type_ := "", Config := [], Output := true,
          RetryCount := 2, BufferQueueLength := 5, BufferTotalQueuedSize := 1024 },
        { Id := "in1", Category := "input", Type_ := "forward", Config := [], Output := false,
          RetryCount := 0, BufferQueueLength := 0, BufferTotalQueuedSize := 0 },
        { Id := "out1", Category := "", Type_ := "", Config := [], Output := true,
          RetryCount := 7, BufferQueueLength := 1, BufferTotalQueuedSize := 64 } ],
    Err := none }

/-- A snapshot without a reportable record: an input plugin and an anonymous
buffer object. -/
def ineligiblePlugin : Plugin :=
  { Target := "http://localhost:24220/api/plugins.json",
    Metrics :=
      [ { Id := "in1", Category := "input", Type_ := "forward", Config := [], Output := false,
          RetryCount := 3, BufferQueueLength := 4, BufferTotalQueuedSize := 5 },
        { Id := "object:3fe1", Category := "output", Type_ := "file", Config := [],
          Output := true, RetryCount := 1, BufferQueueLength := 2,
          BufferTotalQueuedSize := 3 } ],
    Err := none }

/-- The plugin value `main` builds before `Prepare`, for the default flags. -/
def freshPlugin : Plugin :=
  { Target := targetURL "localhost" 24220, Metrics := [], Err := none }

/-- A plugin whose fetch failed: the stored error and no snapshot. -/
def failedPlugin : Plugin :=
  { Target := targetURL "localhost" 24220, Metrics := [],
    Err := some ⟨"dial tcp 127.0.0.1:24220: connection refused"⟩ }

/-- The schema with the one graph `fluentd.buffer` and no descriptor. -/
def emptySchema : GoMap MpGraphs :=
  ⟨[("fluentd.buffer", { Label := "Fluentd Buffer", Metrics := [] })]⟩

/-- Stands for the error value `json.Unmarshal` returns for a body it rejects,
in the endpoints below. The text of that error is the library's and is not
modelled; no statement depends on it. -/
def libraryError (body : String) : GoError := ⟨"json: cannot decode " ++ body⟩

/-- An endpoint that answers every GET with the given status code and body,
the body being read in full; the decode is the one of `encoding/json`. -/
def respondingStages (status : Int) (body : String) : Stages String String :=
  { httpGet := fun _ => .ok { StatusCode := status, Body := body },
    readAll := fun stream => .ok stream,
    jsonUnmarshal := unmarshalFluentMetrics libraryError }

/-- An endpoint to which no connection can be established. -/
def refusingStages : Stages String String :=
  { httpGet := fun _ => .error ⟨"dial tcp 127.0.0.1:24220: connection refused"⟩,
    readAll := fun stream => .ok stream,
    jsonUnmarshal := unmarshalFluentMetrics libraryError }

/-- An endpoint that answers every GET with the given status code and whose
body cannot be read to its end. -/
def truncatingStages (status : Int) : Stages String String :=
  { httpGet := fun _ => .ok { StatusCode := status, Body := "" },
    readAll := fun _ => .error ⟨"unexpected EOF"⟩,
    jsonUnmarshal := unmarshalFluentMetrics libraryError }

/-- The body of the scenario of the spec:
`{"plugins":[{"plugin_id":"out1","output_plugin":true,"retry_count":2,
"buffer_queue_length":5,"buffer_total_queued_size":1024},
{"plugin_id":"object:abc","output_plugin":true,"retry_count":9}]}`. -/
def scenarioBody : String :=
  "\x7b\"plugins\":[\x7b\"plugin_id\":\"out1\",\"output_plugin\":true," ++
  "\"retry_count\":2,\"buffer_queue_length\":5,\"buffer_total_queued_size\":1024\x7d," ++
  "\x7b\"plugin_id\":\"object:abc\",\"output_plugin\":true,\"retry_count\":9\x7d]\x7d"

/-- The body `{}`. -/
def emptyObjectBody : String := "\x7b\x7d"

/-- The body `{"plugins": null}`. -/
def nullPluginsBody : String := "\x7b\"plugins\": null\x7d"

/-- The body `{"PLUGINS": 5}`. -/
def upperCaseNumberBody : String := "\x7b\"PLUGINS\": 5\x7d"

/-- A body with two `plugins` members:
`{"plugins":[{"plugin_id":"a","output_plugin":true,"retry_count":5}],
"plugins":[{"plugin_id":"b"}]}`. -/
def repeatedPluginsBody : String :=
  "\x7b\"plugins\":[\x7b\"plugin_id\":\"a\",\"output_plugin\":true,\"retry_count\":5\x7d]," ++
  "\"plugins\":[\x7b\"plugin_id\":\"b\"\x7d]\x7d"

/-- The body of an error page, `<html><body>Internal Server Error</body></html>`. -/
def errorPageBody : String := "<html><body>Internal Server Error</body></html>"

/-- The character can begin a JSON value. -/
def startsValue (c : Char) : Bool :=
  c = '{' || c = '[' || c = '"' || c = '-' || c = '0' || c = 't' || c = 'f' || c = 'n' ||
    decide ('1' ≤ c ∧ c ≤ '9')

/-- The JSON value is an object carrying a `plugins` array. -/
def carriesPluginsArray (v : Json) : Prop :=
  ∃ (members : List (String × Json)) (items : List Json),
    v = .obj members ∧ ("plugins", Json.arr items) ∈ members

/-- The status code is not one of the success codes `200..299`. -/
def nonSuccess (code : Int) : Prop := ¬ (200 ≤ code ∧ code ≤ 299)

/-- The stages `s` with the status code of every response replaced by `code`. -/
def withStatus {Stream Bytes : Type} (s : Stages Stream Bytes) (code : Int) :
    Stages Stream Bytes :=
  { httpGet := fun url =>
      match s.httpGet url with
      | .error err => .error err
      | .ok resp => .ok { StatusCode := code, Body := resp.Body },
    readAll := s.readAll,
    jsonUnmarshal := s.jsonUnmarshal }

/-- The three keys the projection writes for a record with the id `i`. -/
def keysOfId (i : String) : List String :=
  ["retry." ++ i, "queue." ++ i, "size." ++ i]

/-- The string `s` starts with `pre`: it is `pre` followed by some rest. -/
def StartsWith (s pre : String) : Prop := ∃ rest : String, s = pre ++ rest

/-! ## Strings and keys -/

theorem hasPrefix_iff (s pre : String) : HasPrefix s pre = true ↔ StartsWith s pre := by
  unfold HasPrefix StartsWith
  constructor
  · intro h
    simp only [Bool.and_eq_true, decide_eq_true_eq, beq_iff_eq] at h
    refine ⟨⟨s.data.drop pre.length⟩, ?_⟩
    apply String.ext
    rw [String.data_append]
    have h2 := h.2
    have : s.data.take pre.length ++ s.data.drop pre.length = s.data :=
      List.take_append_drop _ _
    rw [h2] at this
    exact this.symm
  · rintro ⟨rest, rfl⟩
    simp only [Bool.and_eq_true, decide_eq_true_eq, beq_iff_eq]
    constructor
    · rw [String.length_append]; omega
    · rw [String.data_append]
      show List.take pre.data.length (pre.data ++ rest.data) = pre.data
      exact List.take_left _ _

theorem append_left_cancel {pre a b : String} (h : pre ++ a = pre ++ b) : a = b := by
  apply String.ext
  have h2 := congrArg String.data h
  rw [String.data_append, String.data_append] at h2
  exact List.append_cancel_left h2

theorem retry_ne_queue (a b : String) : "retry." ++ a ≠ "queue." ++ b := by
  intro h
  have h2 := congrArg String.data h
  rw [String.data_append, String.data_append] at h2
  have h3 : 'r' = 'q' := (List.cons.inj h2).1
  exact absurd h3 (by decide)

theorem retry_ne_size (a b : String) : "retry." ++ a ≠ "size." ++ b := by
  intro h
  have h2 := congrArg String.data h
  rw [String.data_append, String.data_append] at h2
  have h3 : 'r' = 's' := (List.cons.inj h2).1
  exact absurd h3 (by decide)

theorem queue_ne_size (a b : String) : "queue." ++ a ≠ "size." ++ b := by
  intro h
  have h2 := congrArg String.data h
  rw [String.data_append, String.data_append] at h2
  have h3 : 'q' = 's' := (List.cons.inj h2).1
  exact absurd h3 (by decide)

/-! ## Maps -/

namespace GoMap

variable {V : Type}

theorem find_setEntries_self (l : List (String × V)) (k : String) (v : V) :
    (setEntries l k v).find? (fun e => e.1 = k) = some (k, v) := by
  induction l with
  | nil => simp [setEntries]
  | cons e rest ih =>
    obtain ⟨k1, v1⟩ := e
    by_cases h : k1 = k
    · simp [setEntries, h]
    · simp [setEntries, h, ih]

theorem find_setEntries_ne (l : List (String × V)) {k k2 : String} (v : V) (h : k2 ≠ k) :
    (setEntries l k v).find? (fun e => e.1 = k2) = l.find? (fun e => e.1 = k2) := by
  induction l with
  | nil => simp [setEntries, Ne.symm h]
  | cons e rest ih =>
    obtain ⟨k1, v1⟩ := e
    by_cases h1 : k1 = k
    · subst h1
      simp [setEntries, Ne.symm h]
    · by_cases h2 : k1 = k2
      · subst h2
        simp [setEntries, h1]
      · simp [setEntries, h1, h2, ih]

theorem map_fst_setEntries_mem (l : List (String × V)) (k k2 : String) (v : V) :
    k2 ∈ (setEntries l k v).map (fun e => e.1) ↔ k2 = k ∨ k2 ∈ l.map (fun e => e.1) := by
  induction l with
  | nil => simp [setEntries]
  | cons e rest ih =>
    obtain ⟨k1, v1⟩ := e
    by_cases h1 : k1 = k
    · subst h1
      simp [setEntries]
    · simp only [setEntries, h1, if_false, List.map_cons, List.mem_cons, ih]
      tauto

theorem get_set_self (m : GoMap V) (k : String) (v : V) : (m.set k v).get k = some v := by
  simp [get, set, find_setEntries_self]

theorem get_set_ne (m : GoMap V) {k k2 : String} (v : V) (h : k2 ≠ k) :
    (m.set k v).get k2 = m.get k2 := by
  simp [get, set, find_setEntries_ne _ _ h]

theorem mem_keys_set (m : GoMap V) (k k2 : String) (v : V) :
    k2 ∈ (m.set k v).keys ↔ k2 = k ∨ k2 ∈ m.keys := by
  simp only [keys, set]
  exact map_fst_setEntries_mem _ _ _ _

theorem get_isSome_iff (m : GoMap V) (k : String) : (m.get k).isSome = true ↔ k ∈ m.keys := by
  simp [get, keys]

theorem not_mem_keys_empty (k : String) : k ∉ (empty : GoMap V).keys := by
  simp [keys, empty]

end GoMap

/-! ## The projection loop -/

theorem mem_keysOf (k : String) (r : FluentMetric) :
    k ∈ keysOf r ↔ k = "retry." ++ r.Id ∨ k = "queue." ++ r.Id ∨ k = "size." ++ r.Id := by
  simp [keysOf]

theorem keysOf_disjoint {a b : FluentMetric} (h : a.Id ≠ b.Id) {k : String}
    (hk : k ∈ keysOf a) : k ∉ keysOf b := by
  rw [mem_keysOf] at hk ⊢
  rintro (h1 | h1 | h1) <;> rcases hk with h2 | h2 | h2 <;> rw [h2] at h1
  · exact h (append_left_cancel h1)
  · exact retry_ne_queue _ _ h1.symm
  · exact retry_ne_size _ _ h1.symm
  · exact retry_ne_queue _ _ h1
  · exact h (append_left_cancel h1)
  · exact queue_ne_size _ _ h1.symm
  · exact retry_ne_size _ _ h1
  · exact queue_ne_size _ _ h1
  · exact h (append_left_cancel h1)

theorem fetchStep_of_not_eligible (m : GoMap Float64) {r : FluentMetric}
    (h : isEnableFluentMetric r = false) : fetchStep m r = m := by
  simp [fetchStep, h]

theorem get_fetchStep_eligible (m : GoMap Float64) {r : FluentMetric}
    (h : isEnableFluentMetric r = true) :
    (fetchStep m r).get ("retry." ++ r.Id) = some (float64 r.RetryCount) ∧
    (fetchStep m r).get ("queue." ++ r.Id) = some (float64 r.BufferQueueLength) ∧
    (fetchStep m r).get ("size." ++ r.Id) = some (float64 r.BufferTotalQueuedSize) := by
  simp only [fetchStep, h, if_true]
  refine ⟨?_, ?_, ?_⟩
  · rw [GoMap.get_set_ne _ _ (retry_ne_size _ _), GoMap.get_set_ne _ _ (retry_ne_queue _ _),
      GoMap.get_set_self]
  · rw [GoMap.get_set_ne _ _ (queue_ne_size _ _), GoMap.get_set_self]
  · rw [GoMap.get_set_self]

theorem get_fetchStep_of_not_mem (m : GoMap Float64) {r : FluentMetric} {k : String}
    (h : isEnableFluentMetric r = true → k ∉ keysOf r) : (fetchStep m r).get k = m.get k := by
  cases he : isEnableFluentMetric r with
  | false => rw [fetchStep_of_not_eligible m he]
  | true =>
    have hk := h he
    rw [mem_keysOf] at hk
    simp only [not_or] at hk
    simp only [fetchStep, he, if_true]
    rw [GoMap.get_set_ne _ _ hk.2.2, GoMap.get_set_ne _ _ hk.2.1, GoMap.get_set_ne _ _ hk.1]

theorem get_foldl_of_not_mem (l : List FluentMetric) (m : GoMap Float64) {k : String}
    (h : ∀ r ∈ l, isEnableFluentMetric r = true → k ∉ keysOf r) :
    (l.foldl fetchStep m).get k = m.get k := by
  induction l generalizing m with
  | nil => rfl
  | cons a t ih =>
    rw [List.foldl_cons, ih _ (fun r hr => h r (List.mem_cons_of_mem _ hr)),
      get_fetchStep_of_not_mem m (h a (List.mem_cons_self _ _))]

theorem mem_keys_fetchStep (m : GoMap Float64) (r : FluentMetric) (k : String) :
    k ∈ (fetchStep m r).keys ↔
      k ∈ m.keys ∨ (isEnableFluentMetric r = true ∧ k ∈ keysOf r) := by
  cases he : isEnableFluentMetric r with
  | false => simp [fetchStep, he]
  | true =>
    simp only [fetchStep, he, if_true, GoMap.mem_keys_set, mem_keysOf]
    tauto

theorem mem_keys_foldl (l : List FluentMetric) (m : GoMap Float64) (k : String) :
    k ∈ (l.foldl fetchStep m).keys ↔
      k ∈ m.keys ∨ ∃ r ∈ l, isEnableFluentMetric r = true ∧ k ∈ keysOf r := by
  induction l generalizing m with
  | nil => simp
  | cons a t ih =>
    rw [List.foldl_cons, ih, mem_keys_fetchStep]
    simp only [List.mem_cons, exists_eq_or_imp, or_assoc]

/-- Writes of the last eligible record with a given id survive the rest of the loop. -/
theorem get_foldl_last (pre post : List FluentMetric) (r : FluentMetric) (m : GoMap Float64)
    (hr : isEnableFluentMetric r = true)
    (hlast : ∀ x ∈ post, isEnableFluentMetric x = true → x.Id ≠ r.Id) :
    ((pre ++ r :: post).foldl fetchStep m).get ("retry." ++ r.Id)
      = some (float64 r.RetryCount) ∧
    ((pre ++ r :: post).foldl fetchStep m).get ("queue." ++ r.Id)
      = some (float64 r.BufferQueueLength) ∧
    ((pre ++ r :: post).foldl fetchStep m).get ("size." ++ r.Id)
      = some (float64 r.BufferTotalQueuedSize) := by
  have hkeep : ∀ k ∈ keysOf r, ∀ x ∈ post, isEnableFluentMetric x = true → k ∉ keysOf x :=
    fun k hk x hx he => keysOf_disjoint (Ne.symm (hlast x hx he)) hk
  obtain ⟨h1, h2, h3⟩ := get_fetchStep_eligible (pre.foldl fetchStep m) hr
  rw [List.foldl_append, List.foldl_cons]
  refine ⟨?_, ?_, ?_⟩
  · rw [get_foldl_of_not_mem _ _ (hkeep _ (by simp [keysOf])), h1]
  · rw [get_foldl_of_not_mem _ _ (hkeep _ (by simp [keysOf])), h2]
  · rw [get_foldl_of_not_mem _ _ (hkeep _ (by simp [keysOf])), h3]

/-- A list with an element satisfying `P` splits at the last such element. -/
theorem exists_last_split {α : Type} (P : α → Prop) (l : List α) (h : ∃ x ∈ l, P x) :
    ∃ pre x post, l = pre ++ x :: post ∧ P x ∧ ∀ y ∈ post, ¬ P y := by
  induction l with
  | nil => simp at h
  | cons a t ih =>
    by_cases ht : ∃ x ∈ t, P x
    · obtain ⟨pre, x, post, hsplit, hx, hpost⟩ := ih ht
      exact ⟨a :: pre, x, post, by rw [hsplit]; rfl, hx, hpost⟩
    · obtain ⟨x, hx, hPx⟩ := h
      rcases List.mem_cons.1 hx with rfl | hxt
      · exact ⟨[], x, t, rfl, hPx, fun y hy hPy => ht ⟨y, hy, hPy⟩⟩
      · exact absurd ⟨x, hxt, hPx⟩ ht

/-! ## The schema loop -/

theorem foldl_graphStep (l : List FluentMetric) (acc : List MpMetrics) :
    l.foldl graphStep acc = acc ++ (l.filter isEnableFluentMetric).flatMap descriptorsOf := by
  induction l generalizing acc with
  | nil => simp
  | cons a t ih =>
    rw [List.foldl_cons, ih]
    cases he : isEnableFluentMetric a with
    | false => simp [graphStep, he]
    | true => simp [graphStep, he, descriptorsOf]

theorem get_GraphDefinition (p : Plugin) :
    (GraphDefinition p).get "fluentd.buffer" =
      some { Label := "Fluentd Buffer",
             Metrics := (p.Metrics.filter isEnableFluentMetric).flatMap descriptorsOf } := by
  simp [GraphDefinition, GoMap.get_set_self, foldl_graphStep]

theorem length_flatMap_descriptorsOf (l : List FluentMetric) :
    (l.flatMap descriptorsOf).length = 3 * l.length := by
  induction l with
  | nil => rfl
  | cons a t ih =>
    rw [List.flatMap_cons, List.length_append, ih, List.length_cons]
    simp only [descriptorsOf, List.length_cons, List.length_nil]
    omega

theorem foldl_fetchStep_of_none (l : List FluentMetric) (m : GoMap Float64)
    (h : ∀ r ∈ l, isEnableFluentMetric r = false) : l.foldl fetchStep m = m := by
  induction l generalizing m with
  | nil => rfl
  | cons a t ih =>
    rw [List.foldl_cons, fetchStep_of_not_eligible m (h a (List.mem_cons_self _ _))]
    exact ih m (fun r hr => h r (List.mem_cons_of_mem _ hr))

/-! ## The decoder -/

set_option maxRecDepth 100000 in
theorem decode_scenarioBody :
    (parseJson scenarioBody).bind (decodeFluentMetrics { elems := [], spare := [] })
      = some { elems := scenarioPlugin.Metrics, spare := [] } := by
  decide

set_option maxRecDepth 100000 in
/-- The second `plugins` array is decoded into the element the first one left in
the slice: the record `b` keeps the other fields of the record `a`. -/
theorem decode_repeatedPluginsBody :
    (parseJson repeatedPluginsBody).bind (decodeFluentMetrics { elems := [], spare := [] })
      = some { elems := [{ zeroFluentMetric with Id := "b", Output := true, RetryCount := 5 }],
               spare := [] } := by
  decide

theorem unmarshal_scenarioBody :
    unmarshalFluentMetrics libraryError scenarioBody { Metrics := [] }
      = .ok { Metrics := scenarioPlugin.Metrics } := by
  have h := decode_scenarioBody
  unfold unmarshalFluentMetrics
  cases hp : parseJson scenarioBody with
  | none => rw [hp] at h; cases h
  | some v =>
    rw [hp] at h
    simp only [Option.bind] at h
    simp only [h]

theorem foldl_step_invalid (cs : List Char) (s : Scanner) (h : s.mode = .invalid) :
    cs.foldl step s = s := by
  induction cs with
  | nil => rfl
  | cons c rest ih =>
    have hs : step s c = s := by
      unfold step
      rw [h]
    rw [List.foldl_cons, hs, ih]

theorem parseJson_empty : parseJson "" = none := rfl

theorem parseJson_of_first {body : String} {c : Char} {rest : List Char}
    (hbody : body.data = c :: rest) (hspace : isSpace c = false)
    (hstart : startsValue c = false) : parseJson body = none := by
  have hstep : step ⟨.beginValue, []⟩ c = Scanner.failed := by
    simp only [startsValue, Bool.or_eq_false_iff, decide_eq_false_iff_not] at hstart
    obtain ⟨⟨⟨⟨⟨⟨⟨⟨h1, h2⟩, h3⟩, h4⟩, h5⟩, h6⟩, h7⟩, h8⟩, h9⟩ := hstart
    simp only [step, stepBeginValue, hspace, h1, h2, h3, h4, h5, h6, h7, h8, h9]
    simp
  unfold parseJson
  rw [hbody, List.foldl_cons, hstep, foldl_step_invalid _ _ rfl]
  rfl

theorem decodeMembers_none {α : Type} (decode : α → String → Json → Option α)
    (members : List (String × Json)) (k : String) (x : Json) (hmem : (k, x) ∈ members)
    (hbad : ∀ cur, decode cur k x = none) (cur : α) :
    decodeMembers decode cur members = none := by
  induction members generalizing cur with
  | nil => simp at hmem
  | cons m rest ih =>
    obtain ⟨k1, x1⟩ := m
    cases hstep : decode cur k1 x1 with
    | none => simp [decodeMembers, hstep]
    | some next =>
      rcases List.mem_cons.1 hmem with h | h
      · have h1 : k = k1 := congrArg Prod.fst h
        have h2 : x = x1 := congrArg Prod.snd h
        have hb := hbad cur
        rw [h1, h2, hstep] at hb
        cases hb
      · simp only [decodeMembers, hstep]
        exact ih h next

theorem decodeSlice_none (x : Json) (hnull : x ≠ .null) (harr : ∀ items, x ≠ .arr items)
    (cur : SliceVar) : decodeSlice cur x = none := by
  cases x with
  | null => exact absurd rfl hnull
  | arr items => exact absurd rfl (harr items)
  | bool b => rfl
  | int n => rfl
  | frac lit => rfl
  | str t => rfl
  | obj members => rfl

theorem decodeFluentMetrics_none (v : Json) (hnull : v ≠ .null)
    (hobj : ∀ members, v ≠ .obj members) (cur : SliceVar) :
    decodeFluentMetrics cur v = none := by
  cases v with
  | null => exact absurd rfl hnull
  | obj members => exact absurd rfl (hobj members)
  | bool b => rfl
  | int n => rfl
  | frac lit => rfl
  | str t => rfl
  | arr items => rfl

theorem decodeMembers_document_null (members : List (String × Json))
    (hnull : ∀ k x, (k, x) ∈ members → matchesTag k "plugins" = true → x = .null) :
    decodeMembers decodeDocumentField { elems := [], spare := [] } members
      = some { elems := [], spare := [] } := by
  induction members with
  | nil => rfl
  | cons m rest ih =>
    obtain ⟨k, x⟩ := m
    have hstep : decodeDocumentField { elems := [], spare := [] } k x
        = some { elems := [], spare := [] } := by
      unfold decodeDocumentField
      cases hm : matchesTag k "plugins" with
      | false => simp
      | true =>
        rw [hnull k x (List.mem_cons_self _ _) hm]
        simp [decodeSlice]
    simp only [decodeMembers, hstep]
    exact ih (fun k2 x2 h2 => hnull k2 x2 (List.mem_cons_of_mem _ h2))

theorem parseJson_emptyObjectBody : parseJson emptyObjectBody = some (.obj []) := rfl

theorem parseJson_nullPluginsBody :
    parseJson nullPluginsBody = some (.obj [("plugins", .null)]) := rfl

theorem parseJson_upperCaseNumberBody :
    parseJson upperCaseNumberBody = some (.obj [("PLUGINS", .int 5)]) := rfl

theorem unmarshal_errorPageBody :
    (respondingStages 500 errorPageBody).jsonUnmarshal errorPageBody { Metrics := [] }
      = .error (libraryError errorPageBody) := by
  have hp : parseJson errorPageBody = none :=
    @parseJson_of_first errorPageBody '<' errorPageBody.data.tail rfl (by decide) (by decide)
  show unmarshalFluentMetrics libraryError errorPageBody { Metrics := [] } = _
  simp [unmarshalFluentMetrics, hp]

theorem jsonUnmarshal_respondingStages (status : Int) (body : String) :
    (respondingStages status body).jsonUnmarshal = unmarshalFluentMetrics libraryError := rfl

theorem jsonUnmarshal_scenarioBody (status : Int) :
    (respondingStages status scenarioBody).jsonUnmarshal scenarioBody { Metrics := [] }
      = .ok { Metrics := scenarioPlugin.Metrics } := by
  rw [jsonUnmarshal_respondingStages]
  exact unmarshal_scenarioBody

theorem fetchFluentMetrics_of_body {Stream Bytes : Type} (s : Stages Stream Bytes)
    (p : Plugin) (resp : Response Stream) (body : Bytes)
    (hget : s.httpGet p.Target = .ok resp) (hread : s.readAll resp.Body = .ok body) :
    fetchFluentMetrics s p =
      match s.jsonUnmarshal body { Metrics := [] } with
      | .error err => ([], some err)
      | .ok metrics => (metrics.Metrics, none) := by
  simp [fetchFluentMetrics, hget, hread]

theorem foldl_fetchStep_filter (l : List FluentMetric) (m : GoMap Float64) :
    (l.filter isEnableFluentMetric).foldl fetchStep m = l.foldl fetchStep m := by
  induction l generalizing m with
  | nil => rfl
  | cons a t ih =>
    cases he : isEnableFluentMetric a with
    | false =>
      rw [List.filter_cons_of_neg (by simp [he]), List.foldl_cons,
        fetchStep_of_not_eligible m he]
      exact ih m
    | true =>
      rw [List.filter_cons_of_pos he, List.foldl_cons, List.foldl_cons]
      exact ih _

theorem GraphDefinition_eq (p : Plugin) :
    GraphDefinition p =
      ⟨[("fluentd.buffer",
          { Label := "Fluentd Buffer",
            Metrics := (p.Metrics.filter isEnableFluentMetric).flatMap descriptorsOf })]⟩ := by
  simp [GraphDefinition, foldl_graphStep, GoMap.set, GoMap.setEntries, GoMap.empty]

theorem map_name_descriptorsOf (r : FluentMetric) :
    (descriptorsOf r).map (fun d => d.Name) = keysOf r := rfl

/-! ## Counting the entries -/

theorem GoMap.nodup_setEntries {V : Type} (l : List (String × V)) (k : String) (v : V)
    (h : (l.map (fun e => e.1)).Nodup) :
    ((GoMap.setEntries l k v).map (fun e => e.1)).Nodup := by
  induction l with
  | nil => simp [GoMap.setEntries]
  | cons e rest ih =>
    obtain ⟨k1, v1⟩ := e
    rw [List.map_cons, List.nodup_cons] at h
    by_cases h1 : k1 = k
    · subst h1
      simp only [GoMap.setEntries, if_true, List.map_cons, List.nodup_cons]
      exact h
    · simp only [GoMap.setEntries, h1, if_false, List.map_cons, List.nodup_cons]
      refine ⟨?_, ih h.2⟩
      rw [GoMap.map_fst_setEntries_mem]
      rintro (h2 | h2)
      · exact h1 h2
      · exact h.1 h2

theorem GoMap.nodup_keys_set {V : Type} (m : GoMap V) (k : String) (v : V)
    (h : m.keys.Nodup) : (m.set k v).keys.Nodup :=
  GoMap.nodup_setEntries m.entries k v h

theorem nodup_keys_fetchStep (m : GoMap Float64) (r : FluentMetric) (h : m.keys.Nodup) :
    (fetchStep m r).keys.Nodup := by
  unfold fetchStep
  split
  · exact GoMap.nodup_keys_set _ _ _ (GoMap.nodup_keys_set _ _ _ (GoMap.nodup_keys_set _ _ _ h))
  · exact h

theorem nodup_keys_foldl (l : List FluentMetric) (m : GoMap Float64) (h : m.keys.Nodup) :
    (l.foldl fetchStep m).keys.Nodup := by
  induction l generalizing m with
  | nil => exact h
  | cons a t ih => exact ih _ (nodup_keys_fetchStep m a h)

theorem nodup_keysOfId (i : String) : (keysOfId i).Nodup := by
  simp [keysOfId, retry_ne_queue, retry_ne_size, queue_ne_size]

theorem keysOfId_disjoint {a b : String} (h : a ≠ b) {k : String}
    (hk : k ∈ keysOfId a) : k ∉ keysOfId b :=
  keysOf_disjoint (a := { zeroFluentMetric with Id := a })
    (b := { zeroFluentMetric with Id := b }) h hk

theorem nodup_flatMap_keysOfId (ids : List String) (h : ids.Nodup) :
    (ids.flatMap keysOfId).Nodup := by
  rw [List.nodup_flatMap]
  refine ⟨fun i _ => nodup_keysOfId i, ?_⟩
  refine List.Pairwise.imp ?_ h
  intro a b hab k hka hkb
  exact keysOfId_disjoint hab hka hkb

theorem length_flatMap_keysOfId (ids : List String) :
    (ids.flatMap keysOfId).length = 3 * ids.length := by
  induction ids with
  | nil => rfl
  | cons a t ih =>
    rw [List.flatMap_cons, List.length_append, ih, List.length_cons]
    simp only [keysOfId, List.length_cons, List.length_nil]
    omega

theorem length_keys_foldl (l : List FluentMetric) :
    (l.foldl fetchStep GoMap.empty).keys.length
      = 3 * ((l.filter isEnableFluentMetric).map (fun r => r.Id)).dedup.length := by
  rw [← length_flatMap_keysOfId]
  apply List.Perm.length_eq
  rw [List.perm_ext_iff_of_nodup
    (nodup_keys_foldl l GoMap.empty (by simp [GoMap.keys, GoMap.empty]))
    (nodup_flatMap_keysOfId _ (List.nodup_dedup _))]
  intro k
  rw [mem_keys_foldl]
  simp only [GoMap.not_mem_keys_empty, false_or, List.mem_flatMap, List.mem_dedup,
    List.mem_map, List.mem_filter]
  constructor
  · rintro ⟨r, hr, he, hk⟩
    exact ⟨r.Id, ⟨r, ⟨hr, he⟩, rfl⟩, hk⟩
  · rintro ⟨i, ⟨r, ⟨hr, he⟩, rfl⟩, hk⟩
    exact ⟨r, hr, he, hk⟩

/-- C1. `isEnableFluentMetric m` is true exactly when `m.Output` is true and
`m.Id` does not start with the literal prefix `"object:"`; replacing any of
the other six fields leaves the result unchanged. -/
theorem isEnableFluentMetric_iff (m : FluentMetric) :
    (isEnableFluentMetric m = true ↔ (m.Output = true ∧ ¬ StartsWith m.Id "object:")) ∧
    (∀ (cat ty : String) (cfg : List (String × String)) (rc ql sz : Int),
      isEnableFluentMetric
          { Id := m.Id, Category := cat, Type_ := ty, Config := cfg, Output := m.Output,
            RetryCount := rc, BufferQueueLength := ql, BufferTotalQueuedSize := sz }
        = isEnableFluentMetric m) := by
  refine ⟨?_, fun _ _ _ _ _ _ => rfl⟩
  rw [← hasPrefix_iff]
  unfold isEnableFluentMetric
  cases m.Output <;> cases HasPrefix m.Id "object:" <;> simp

/-- C2. With no stored fetch error and pairwise distinct ids among the eligible
records, `FetchMetrics` returns a map that sends, for every eligible record
`r`, `"retry."+r.Id`, `"queue."+r.Id` and `"size."+r.Id` to the `float64` of
`r.RetryCount`, `r.BufferQueueLength` and `r.BufferTotalQueuedSize`; any call
on a plugin with the same snapshot and error returns the same result. -/
theorem FetchMetrics_values (p : Plugin) (hErr : p.Err = none)
    (hId : (p.Metrics.filter isEnableFluentMetric).Pairwise (fun a b => a.Id ≠ b.Id)) :
    ∃ m : GoMap Float64, FetchMetrics p = (some m, none) ∧
      (∀ r ∈ p.Metrics, isEnableFluentMetric r = true →
        m.get ("retry." ++ r.Id) = some (float64 r.RetryCount) ∧
        m.get ("queue." ++ r.Id) = some (float64 r.BufferQueueLength) ∧
        m.get ("size." ++ r.Id) = some (float64 r.BufferTotalQueuedSize)) ∧
      (∀ q : Plugin, q.Metrics = p.Metrics → q.Err = p.Err →
        FetchMetrics q = (some m, none)) := by
  refine ⟨p.Metrics.foldl fetchStep GoMap.empty, by simp [FetchMetrics, hErr], ?_, ?_⟩
  · intro r hr he
    obtain ⟨pre, post, hsplit⟩ := List.append_of_mem hr
    rw [hsplit]
    apply get_foldl_last pre post r _ he
    intro x hx hxe hxid
    rw [hsplit, List.filter_append, List.filter_cons, he, if_pos rfl] at hId
    have h2 := (List.pairwise_append.1 hId).2.1
    have h3 := (List.pairwise_cons.1 h2).1 x (List.mem_filter.2 ⟨hx, hxe⟩)
    exact h3 hxid.symm
  · intro q hM hE
    simp [FetchMetrics, hM, hE, hErr]

/-- The hypotheses of `FetchMetrics_values` hold on the scenario snapshot. -/
theorem FetchMetrics_values_witness :
    scenarioPlugin.Err = none ∧
    (scenarioPlugin.Metrics.filter isEnableFluentMetric).Pairwise (fun a b => a.Id ≠ b.Id) ∧
    ∃ m : GoMap Float64, FetchMetrics scenarioPlugin = (some m, none) ∧
      (∀ r ∈ scenarioPlugin.Metrics, isEnableFluentMetric r = true →
        m.get ("retry." ++ r.Id) = some (float64 r.RetryCount) ∧
        m.get ("queue." ++ r.Id) = some (float64 r.BufferQueueLength) ∧
        m.get ("size." ++ r.Id) = some (float64 r.BufferTotalQueuedSize)) ∧
      (∀ q : Plugin, q.Metrics = scenarioPlugin.Metrics → q.Err = scenarioPlugin.Err →
        FetchMetrics q = (some m, none)) :=
  ⟨rfl, by decide, FetchMetrics_values scenarioPlugin rfl (by decide)⟩

/-- C3. With no stored fetch error, a string is a key of the map returned by
`FetchMetrics` exactly when it is `"retry."+r.Id`, `"queue."+r.Id` or
`"size."+r.Id` for some eligible record `r` of the snapshot; this holds both
for membership in the key set and for a successful lookup. -/
theorem FetchMetrics_keys (p : Plugin) (hErr : p.Err = none) :
    ∃ m : GoMap Float64, FetchMetrics p = (some m, none) ∧ ∀ k : String,
      (k ∈ m.keys ↔ ∃ r ∈ p.Metrics, isEnableFluentMetric r = true ∧
        (k = "retry." ++ r.Id ∨ k = "queue." ++ r.Id ∨ k = "size." ++ r.Id)) ∧
      ((m.get k).isSome = true ↔ k ∈ m.keys) := by
  refine ⟨p.Metrics.foldl fetchStep GoMap.empty, by simp [FetchMetrics, hErr], ?_⟩
  intro k
  refine ⟨?_, GoMap.get_isSome_iff _ k⟩
  rw [mem_keys_foldl]
  simp only [GoMap.not_mem_keys_empty, false_or, mem_keysOf]

/-- The hypothesis of `FetchMetrics_keys` holds on the snapshot with a repeated id. -/
theorem FetchMetrics_keys_witness :
    duplicatePlugin.Err = none ∧
    ∃ m : GoMap Float64, FetchMetrics duplicatePlugin = (some m, none) ∧ ∀ k : String,
      (k ∈ m.keys ↔ ∃ r ∈ duplicatePlugin.Metrics, isEnableFluentMetric r = true ∧
        (k = "retry." ++ r.Id ∨ k = "queue." ++ r.Id ∨ k = "size." ++ r.Id)) ∧
      ((m.get k).isSome = true ↔ k ∈ m.keys) :=
  ⟨rfl, FetchMetrics_keys duplicatePlugin rfl⟩

/-- C4. With no stored fetch error, for every id carried by some eligible
record the snapshot splits at the last eligible record `r` with that id, and
`FetchMetrics` returns, with a nil error, a map whose values under
`"retry."+id`, `"queue."+id` and `"size."+id` are the `float64` of the three
counters of that last record. -/
theorem FetchMetrics_last_write_wins (p : Plugin) (hErr : p.Err = none) (id : String)
    (hocc : ∃ r ∈ p.Metrics, isEnableFluentMetric r = true ∧ r.Id = id) :
    ∃ m : GoMap Float64, FetchMetrics p = (some m, none) ∧
      ∃ (pre : List FluentMetric) (r : FluentMetric) (post : List FluentMetric),
        p.Metrics = pre ++ r :: post ∧
        isEnableFluentMetric r = true ∧ r.Id = id ∧
        (∀ x ∈ post, ¬ (isEnableFluentMetric x = true ∧ x.Id = id)) ∧
        m.get ("retry." ++ id) = some (float64 r.RetryCount) ∧
        m.get ("queue." ++ id) = some (float64 r.BufferQueueLength) ∧
        m.get ("size." ++ id) = some (float64 r.BufferTotalQueuedSize) := by
  refine ⟨p.Metrics.foldl fetchStep GoMap.empty, by simp [FetchMetrics, hErr], ?_⟩
  obtain ⟨pre, r, post, hsplit, ⟨he, hid⟩, hpost⟩ :=
    exists_last_split (fun x => isEnableFluentMetric x = true ∧ x.Id = id) p.Metrics hocc
  refine ⟨pre, r, post, hsplit, he, hid, hpost, ?_⟩
  have h := get_foldl_last pre post r GoMap.empty he
    (fun x hx hxe hxid => hpost x hx ⟨hxe, hxid.trans hid⟩)
  rw [hsplit, ← hid]
  exact h

/-- The hypotheses of `FetchMetrics_last_write_wins` hold for `out1` on the snapshot
with a repeated id. -/
theorem FetchMetrics_last_write_wins_witness :
    duplicatePlugin.Err = none ∧
    (∃ r ∈ duplicatePlugin.Metrics, isEnableFluentMetric r = true ∧ r.Id = "out1") ∧
    ∃ m : GoMap Float64, FetchMetrics duplicatePlugin = (some m, none) ∧
      ∃ (pre : List FluentMetric) (r : FluentMetric) (post : List FluentMetric),
        duplicatePlugin.Metrics = pre ++ r :: post ∧
        isEnableFluentMetric r = true ∧ r.Id = "out1" ∧
        (∀ x ∈ post, ¬ (isEnableFluentMetric x = true ∧ x.Id = "out1")) ∧
        m.get ("retry." ++ "out1") = some (float64 r.RetryCount) ∧
        m.get ("queue." ++ "out1") = some (float64 r.BufferQueueLength) ∧
        m.get ("size." ++ "out1") = some (float64 r.BufferTotalQueuedSize) :=
  ⟨rfl, by decide, FetchMetrics_last_write_wins duplicatePlugin rfl "out1" (by decide)⟩

/-- C5. `FetchMetrics` returns a non-nil error exactly when the stored error
`Err` is non-nil; it then returns the nil map together with `Err` itself, and
when `Err` is nil it returns a map together with the nil error, whatever the
snapshot holds. -/
theorem FetchMetrics_error_iff (p : Plugin) :
    ((FetchMetrics p).2 ≠ none ↔ p.Err ≠ none) ∧
    (∀ err : GoError, p.Err = some err → FetchMetrics p = (none, some err)) ∧
    (p.Err = none → ∃ m : GoMap Float64, FetchMetrics p = (some m, none)) := by
  cases h : p.Err with
  | none => simp [FetchMetrics, h]
  | some e => simp [FetchMetrics, h]

/-- C6. For every plugin, the graph stored under `"fluentd.buffer"` by
`GraphDefinition` lists, for the eligible records of the snapshot in snapshot
order, the three descriptors `retry.`, `queue.`, `size.` of each record, in
that order and with their labels; every descriptor has `Diff = false`. -/
theorem GraphDefinition_metrics (p : Plugin) :
    ∃ g : MpGraphs, (GraphDefinition p).get "fluentd.buffer" = some g ∧
      g.Metrics = (p.Metrics.filter isEnableFluentMetric).flatMap (fun r =>
        [ { Name := "retry." ++ r.Id, Label := "Retry Count " ++ r.Id, Diff := false },
          { Name := "queue." ++ r.Id, Label := "Queue Length " ++ r.Id, Diff := false },
          { Name := "size." ++ r.Id, Label := "Buffer Size " ++ r.Id, Diff := false } ]) ∧
      ∀ d ∈ g.Metrics, d.Diff = false := by
  refine ⟨_, get_GraphDefinition p, rfl, ?_⟩
  intro d hd
  simp only [List.mem_flatMap, descriptorsOf, List.mem_cons, List.mem_singleton,
    List.not_mem_nil, or_false] at hd
  obtain ⟨r, _, rfl | rfl | rfl⟩ := hd <;> rfl

/-- C7. For every plugin, the map returned by `GraphDefinition` has exactly one
entry, its key is `"fluentd.buffer"`, and the graph under that key has the
label `"Fluentd Buffer"`. -/
theorem GraphDefinition_single_graph (p : Plugin) :
    (GraphDefinition p).keys = ["fluentd.buffer"] ∧
    (GraphDefinition p).len = 1 ∧
    ∃ g : MpGraphs, (GraphDefinition p).get "fluentd.buffer" = some g ∧
      g.Label = "Fluentd Buffer" := by
  refine ⟨rfl, rfl, _, get_GraphDefinition p, rfl⟩

/-- C8. For every plugin, the graph returned by `GraphDefinition` holds exactly
three descriptors per record for which `isEnableFluentMetric` holds, records
with equal ids counted separately. -/
theorem GraphDefinition_length (p : Plugin) :
    ∃ g : MpGraphs, (GraphDefinition p).get "fluentd.buffer" = some g ∧
      g.Metrics.length = 3 * p.Metrics.countP isEnableFluentMetric := by
  refine ⟨_, get_GraphDefinition p, ?_⟩
  rw [List.countP_eq_length_filter]
  exact length_flatMap_descriptorsOf _

/-- C9. With no stored fetch error and a snapshot that is empty or holds no
eligible record, `FetchMetrics` returns the empty map and the nil error, and
`GraphDefinition` returns the `"fluentd.buffer"` graph without descriptors. -/
theorem empty_snapshot (p : Plugin) (hErr : p.Err = none)
    (hnone : p.Metrics = [] ∨ ∀ r ∈ p.Metrics, isEnableFluentMetric r = false) :
    FetchMetrics p = (some GoMap.empty, none) ∧
    (GraphDefinition p).keys = ["fluentd.buffer"] ∧
    ∃ g : MpGraphs, (GraphDefinition p).get "fluentd.buffer" = some g ∧ g.Metrics = [] := by
  have hall : ∀ r ∈ p.Metrics, isEnableFluentMetric r = false := by
    rcases hnone with h | h
    · intro r hr
      rw [h] at hr
      exact absurd hr (List.not_mem_nil r)
    · exact h
  refine ⟨?_, rfl, _, get_GraphDefinition p, ?_⟩
  · simp only [FetchMetrics, hErr]
    rw [foldl_fetchStep_of_none _ _ hall]
  · have hf : p.Metrics.filter isEnableFluentMetric = [] := by
      rw [List.filter_eq_nil_iff]
      intro r hr
      simp [hall r hr]
    simp [hf]

/-- The hypotheses of `empty_snapshot` hold on the snapshot without eligible record. -/
theorem empty_snapshot_witness :
    ineligiblePlugin.Err = none ∧
    (ineligiblePlugin.Metrics = [] ∨
      ∀ r ∈ ineligiblePlugin.Metrics, isEnableFluentMetric r = false) ∧
    FetchMetrics ineligiblePlugin = (some GoMap.empty, none) ∧
    (GraphDefinition ineligiblePlugin).keys = ["fluentd.buffer"] ∧
    ∃ g : MpGraphs,
      (GraphDefinition ineligiblePlugin).get "fluentd.buffer" = some g ∧ g.Metrics = [] :=
  ⟨rfl, Or.inr (by decide), empty_snapshot ineligiblePlugin rfl (Or.inr (by decide))⟩

/-- C10. On the scenario snapshot (`out1` reportable, `object:abc` an anonymous
buffer object, no fetch error) `FetchMetrics` returns exactly the map
`retry.out1 = 2`, `queue.out1 = 5`, `size.out1 = 1024` with the nil error, and
`GraphDefinition` returns the single graph `"fluentd.buffer"` whose descriptors
are the three of `out1`, in the order retry, queue, size. -/
theorem scenario_out1 :
    FetchMetrics scenarioPlugin =
      (some ⟨[("retry.out1", ⟨2⟩), ("queue.out1", ⟨5⟩), ("size.out1", ⟨1024⟩)]⟩, none) ∧
    GraphDefinition scenarioPlugin =
      ⟨[("fluentd.buffer",
          { Label := "Fluentd Buffer",
            Metrics :=
              [ { Name := "retry.out1", Label := "Retry Count out1", Diff := false },
                { Name := "queue.out1", Label := "Queue Length out1", Diff := false },
                { Name := "size.out1", Label := "Buffer Size out1", Diff := false } ] })]⟩ := by
  constructor <;> decide

/-- C12. With the HTTP GET, the body read and the JSON decode as three fallible
stages, `fetchFluentMetrics` returns an error exactly when one of them fails:
the error of the first failing stage with no records, whatever the later
stages would do; when all three succeed it returns the decoded `plugins`
sequence with the nil error. `Prepare` stores the returned pair in `Metrics`
and `Err` and leaves `Target` alone. -/
theorem fetchFluentMetrics_stages {Stream Bytes : Type} (s : Stages Stream Bytes)
    (p : Plugin) :
    (∀ err, s.httpGet p.Target = .error err → fetchFluentMetrics s p = ([], some err)) ∧
    (∀ resp err, s.httpGet p.Target = .ok resp → s.readAll resp.Body = .error err →
      fetchFluentMetrics s p = ([], some err)) ∧
    (∀ resp body err, s.httpGet p.Target = .ok resp → s.readAll resp.Body = .ok body →
      s.jsonUnmarshal body { Metrics := [] } = .error err →
      fetchFluentMetrics s p = ([], some err)) ∧
    (∀ resp body metrics, s.httpGet p.Target = .ok resp → s.readAll resp.Body = .ok body →
      s.jsonUnmarshal body { Metrics := [] } = .ok metrics →
      fetchFluentMetrics s p = (metrics.Metrics, none)) ∧
    ((fetchFluentMetrics s p).2 ≠ none ↔
      ((∃ err, s.httpGet p.Target = .error err) ∨
       (∃ resp err, s.httpGet p.Target = .ok resp ∧ s.readAll resp.Body = .error err) ∨
       (∃ resp body err, s.httpGet p.Target = .ok resp ∧ s.readAll resp.Body = .ok body ∧
          s.jsonUnmarshal body { Metrics := [] } = .error err))) ∧
    (Prepare s p).Metrics = (fetchFluentMetrics s p).1 ∧
    (Prepare s p).Err = (fetchFluentMetrics s p).2 ∧
    (Prepare s p).Target = p.Target := by
  refine ⟨?_, ?_, ?_, ?_, ?_, rfl, rfl, rfl⟩
  · intro err h
    simp [fetchFluentMetrics, h]
  · intro resp err h1 h2
    simp [fetchFluentMetrics, h1, h2]
  · intro resp body err h1 h2 h3
    simp [fetchFluentMetrics, h1, h2, h3]
  · intro resp body metrics h1 h2 h3
    simp [fetchFluentMetrics, h1, h2, h3]
  · cases h1 : s.httpGet p.Target with
    | error err => simp [fetchFluentMetrics, h1]
    | ok resp =>
      cases h2 : s.readAll resp.Body with
      | error err => simp [fetchFluentMetrics, h1, h2]
      | ok body =>
        cases h3 : s.jsonUnmarshal body { Metrics := [] } with
        | error err => simp [fetchFluentMetrics, h1, h2, h3]
        | ok metrics => simp [fetchFluentMetrics, h1, h2, h3]

/-- The cases of `fetchFluentMetrics_stages` occur: a refused connection yields
its error and no records, and a readable, decodable body yields its records. -/
theorem fetchFluentMetrics_stages_witness :
    fetchFluentMetrics refusingStages freshPlugin
      = ([], some ⟨"dial tcp 127.0.0.1:24220: connection refused"⟩) ∧
    fetchFluentMetrics (respondingStages 200 scenarioBody) freshPlugin
      = (scenarioPlugin.Metrics, none) :=
  ⟨(fetchFluentMetrics_stages refusingStages freshPlugin).1 _ rfl,
    (fetchFluentMetrics_stages (respondingStages 200 scenarioBody) freshPlugin).2.2.2.1
      { StatusCode := 200, Body := scenarioBody } scenarioBody
      { Metrics := scenarioPlugin.Metrics } rfl rfl (jsonUnmarshal_scenarioBody 200)⟩

/-- C11, as stated, fails: for the plugin of a failed fetch (stored error, no
snapshot) `GraphDefinition` returns the graph `fluentd.buffer` without
descriptors, and with a refused connection the definitions branch of `main`
hands that schema to the helper, while `FetchMetrics` returns no map. -/
theorem definitions_not_blocked :
    failedPlugin.Err ≠ none ∧ failedPlugin.Metrics = [] ∧
    (FetchMetrics failedPlugin).1 = none ∧
    GraphDefinition failedPlugin = emptySchema ∧
    (GraphDefinition failedPlugin).len = 1 ∧
    Prepare refusingStages freshPlugin = failedPlugin ∧
    main refusingStages "localhost" 24220 "1" = Emission.definitions emptySchema ∧
    ¬ (∀ p : Plugin, p.Err ≠ none → p.Metrics = [] → (GraphDefinition p).keys = []) := by
  refine ⟨by decide, rfl, rfl, rfl, rfl, rfl, by decide, ?_⟩
  intro h
  exact absurd (h failedPlugin (by decide) rfl) (by decide)

/-- C11, amended. For a plugin whose fetch failed (stored error `err`, no
snapshot) only the values path is blocked: `FetchMetrics` returns no map and
`err`; `GraphDefinition` does not read `Err` and returns the one graph
`fluentd.buffer`, labelled `Fluentd Buffer`, without descriptors; and when
`Prepare` in `main` yields this plugin, `main` asks the helper for that schema
in definitions mode and for the failed result in values mode. -/
theorem GraphDefinition_ignores_Err (p : Plugin) (err : GoError)
    (hErr : p.Err = some err) (hM : p.Metrics = []) :
    FetchMetrics p = (none, some err) ∧
    GraphDefinition p = emptySchema ∧
    (∀ e : Option GoError, GraphDefinition { p with Err := e } = GraphDefinition p) ∧
    (∀ (Stream Bytes : Type) (s : Stages Stream Bytes) (host : String) (port : Int)
        (metaEnv : String),
      Prepare s { Target := targetURL host port, Metrics := [], Err := none } = p →
      (metaEnv ≠ "" → main s host port metaEnv = Emission.definitions emptySchema) ∧
      (metaEnv = "" → main s host port metaEnv = Emission.values (none, some err))) := by
  have h1 : FetchMetrics p = (none, some err) := by simp [FetchMetrics, hErr]
  have h2 : GraphDefinition p = emptySchema := by
    simp [GraphDefinition, hM, emptySchema, GoMap.set, GoMap.setEntries, GoMap.empty]
  refine ⟨h1, h2, fun _ => rfl, ?_⟩
  intro Stream Bytes s host port metaEnv hprep
  constructor
  · intro hne
    simp only [main, hprep, h2]
    rw [if_pos hne]
  · intro heq
    simp only [main, hprep, h1]
    rw [if_neg (not_not.2 heq)]

/-- The hypotheses of `GraphDefinition_ignores_Err` hold for the plugin a refused
connection leaves behind. -/
theorem GraphDefinition_ignores_Err_witness :
    failedPlugin.Err = some ⟨"dial tcp 127.0.0.1:24220: connection refused"⟩ ∧
    failedPlugin.Metrics = [] ∧
    FetchMetrics failedPlugin =
      (none, some ⟨"dial tcp 127.0.0.1:24220: connection refused"⟩) ∧
    GraphDefinition failedPlugin = emptySchema ∧
    main refusingStages "localhost" 24220 "1" = Emission.definitions emptySchema ∧
    main refusingStages "localhost" 24220 "" =
      Emission.values (none, some ⟨"dial tcp 127.0.0.1:24220: connection refused"⟩) :=
  ⟨rfl, rfl,
    (GraphDefinition_ignores_Err failedPlugin
      ⟨"dial tcp 127.0.0.1:24220: connection refused"⟩ rfl rfl).1,
    (GraphDefinition_ignores_Err failedPlugin
      ⟨"dial tcp 127.0.0.1:24220: connection refused"⟩ rfl rfl).2.1,
    ((GraphDefinition_ignores_Err failedPlugin
      ⟨"dial tcp 127.0.0.1:24220: connection refused"⟩ rfl rfl).2.2.2
      String String refusingStages "localhost" 24220 "1" rfl).1 (by decide),
    ((GraphDefinition_ignores_Err failedPlugin
      ⟨"dial tcp 127.0.0.1:24220: connection refused"⟩ rfl rfl).2.2.2
      String String refusingStages "localhost" 24220 "" rfl).2 rfl⟩

/-- C13, as stated, fails: the bodies `{}` and `{"plugins": null}` are valid
JSON and carry no `plugins` array, and `fetchFluentMetrics` returns the empty
snapshot with the nil error for both. -/
theorem missing_plugins_accepted :
    parseJson emptyObjectBody = some (.obj []) ∧
    ¬ carriesPluginsArray (.obj []) ∧
    fetchFluentMetrics (respondingStages 200 emptyObjectBody) freshPlugin = ([], none) ∧
    parseJson nullPluginsBody = some (.obj [("plugins", .null)]) ∧
    ¬ carriesPluginsArray (.obj [("plugins", .null)]) ∧
    fetchFluentMetrics (respondingStages 200 nullPluginsBody) freshPlugin = ([], none) := by
  refine ⟨parseJson_emptyObjectBody, ?_, by decide, parseJson_nullPluginsBody, ?_, by decide⟩
  · rintro ⟨members, items, h, hm⟩
    cases h
    simp at hm
  · rintro ⟨members, items, h, hm⟩
    cases h
    simp at hm

/-- C13, amended. When the GET and the read deliver the body and the decode is
the one of `encoding/json`, `fetchFluentMetrics` fails with the decode error
and no records for a body that is not valid JSON (such is the empty body, and
every body that begins with a character that is neither white space nor the
first character of a JSON value), for a body whose value is neither an object
nor `null`, and for an object with a member named `plugins`, the name
compared up to letter case, whose value is neither an array nor `null`. A
body whose value is `null`, or an object in which every member so named is
`null` (in particular no member at all), is decoded without error to the
empty snapshot. -/
theorem fetchFluentMetrics_decode_shape {Stream : Type} (s : Stages Stream String)
    (p : Plugin) (resp : Response Stream) (body : String) (errorOf : String → GoError)
    (hget : s.httpGet p.Target = .ok resp) (hread : s.readAll resp.Body = .ok body)
    (hjson : s.jsonUnmarshal = unmarshalFluentMetrics errorOf) :
    (parseJson body = none → fetchFluentMetrics s p = ([], some (errorOf body))) ∧
    ((body = "" ∨ ∃ c rest, body.data = c :: rest ∧ isSpace c = false ∧
        startsValue c = false) → parseJson body = none) ∧
    (∀ v, parseJson body = some v → v ≠ .null → (∀ members, v ≠ .obj members) →
      fetchFluentMetrics s p = ([], some (errorOf body))) ∧
    (∀ members k x, parseJson body = some (.obj members) → (k, x) ∈ members →
      matchesTag k "plugins" = true → x ≠ .null → (∀ items, x ≠ .arr items) →
      fetchFluentMetrics s p = ([], some (errorOf body))) ∧
    (parseJson body = some .null → fetchFluentMetrics s p = ([], none)) ∧
    (∀ members, parseJson body = some (.obj members) →
      (∀ k x, (k, x) ∈ members → matchesTag k "plugins" = true → x = .null) →
      fetchFluentMetrics s p = ([], none)) := by
  rw [fetchFluentMetrics_of_body s p resp body hget hread, hjson]
  refine ⟨?_, ?_, ?_, ?_, ?_, ?_⟩
  · intro hp
    simp [unmarshalFluentMetrics, hp]
  · rintro (hb | ⟨c, rest, hb, hspace, hstart⟩)
    · rw [hb]
      exact parseJson_empty
    · exact parseJson_of_first hb hspace hstart
  · intro v hp hnull hobj
    simp [unmarshalFluentMetrics, hp, decodeFluentMetrics_none v hnull hobj]
  · intro members k x hp hmem hk hnull harr
    have hbad : ∀ cur, decodeDocumentField cur k x = none := by
      intro cur
      simp [decodeDocumentField, hk, decodeSlice_none x hnull harr]
    simp [unmarshalFluentMetrics, hp, decodeFluentMetrics,
      decodeMembers_none decodeDocumentField members k x hmem hbad]
  · intro hp
    simp [unmarshalFluentMetrics, hp, decodeFluentMetrics]
  · intro members hp hall
    simp [unmarshalFluentMetrics, hp, decodeFluentMetrics,
      decodeMembers_document_null members hall]

/-- The hypotheses of `fetchFluentMetrics_decode_shape` hold for an endpoint that
answers with the body `{"PLUGINS": 5}`, and the fetch fails there. -/
theorem fetchFluentMetrics_decode_shape_witness :
    (respondingStages 200 upperCaseNumberBody).jsonUnmarshal
      = unmarshalFluentMetrics libraryError ∧
    parseJson upperCaseNumberBody = some (.obj [("PLUGINS", .int 5)]) ∧
    matchesTag "PLUGINS" "plugins" = true ∧
    ∃ err, fetchFluentMetrics (respondingStages 200 upperCaseNumberBody) freshPlugin
      = ([], some err) :=
  ⟨rfl, parseJson_upperCaseNumberBody, by decide, _,
    (fetchFluentMetrics_decode_shape (respondingStages 200 upperCaseNumberBody) freshPlugin
      { StatusCode := 200, Body := upperCaseNumberBody } upperCaseNumberBody libraryError
      rfl rfl rfl).2.2.2.1
      [("PLUGINS", .int 5)] "PLUGINS" (.int 5) parseJson_upperCaseNumberBody
      (List.mem_singleton.2 rfl) (by decide) (by simp) (by simp)⟩

/-- C14. With no stored fetch error, deleting the ineligible records from the
snapshot changes neither the result of `FetchMetrics` nor the schema of
`GraphDefinition`, and two plugins without stored error whose snapshots have
the same eligible records in the same order get the same two outputs. -/
theorem outputs_of_filtered_snapshot (p : Plugin) (hErr : p.Err = none) :
    FetchMetrics { p with Metrics := p.Metrics.filter isEnableFluentMetric }
      = FetchMetrics p ∧
    GraphDefinition { p with Metrics := p.Metrics.filter isEnableFluentMetric }
      = GraphDefinition p ∧
    (∀ q : Plugin, q.Err = none →
      q.Metrics.filter isEnableFluentMetric = p.Metrics.filter isEnableFluentMetric →
      FetchMetrics q = FetchMetrics p ∧ GraphDefinition q = GraphDefinition p) := by
  refine ⟨?_, ?_, ?_⟩
  · simp only [FetchMetrics, hErr, foldl_fetchStep_filter]
  · rw [GraphDefinition_eq, GraphDefinition_eq, List.filter_filter]
    simp
  · intro q hq hf
    constructor
    · simp only [FetchMetrics, hErr, hq]
      rw [← foldl_fetchStep_filter q.Metrics, ← foldl_fetchStep_filter p.Metrics, hf]
    · rw [GraphDefinition_eq, GraphDefinition_eq, hf]

/-- The hypothesis of `outputs_of_filtered_snapshot` holds on the snapshot with a
repeated id and an input plugin. -/
theorem outputs_of_filtered_snapshot_witness :
    duplicatePlugin.Err = none ∧
    FetchMetrics
      { duplicatePlugin with
        Metrics := duplicatePlugin.Metrics.filter isEnableFluentMetric }
      = FetchMetrics duplicatePlugin ∧
    GraphDefinition
      { duplicatePlugin with
        Metrics := duplicatePlugin.Metrics.filter isEnableFluentMetric }
      = GraphDefinition duplicatePlugin :=
  ⟨rfl, (outputs_of_filtered_snapshot duplicatePlugin rfl).1,
    (outputs_of_filtered_snapshot duplicatePlugin rfl).2.1⟩

/-- C15, as stated, fails: an endpoint answers with status 500 and the body of
the scenario; `Prepare` leaves `Err` nil and stores the two records, and
`FetchMetrics` returns the three values of `out1` with the nil error. -/
theorem error_status_accepted :
    nonSuccess 500 ∧
    (Prepare (respondingStages 500 scenarioBody) freshPlugin).Err = none ∧
    (Prepare (respondingStages 500 scenarioBody) freshPlugin).Metrics
      = scenarioPlugin.Metrics ∧
    FetchMetrics (Prepare (respondingStages 500 scenarioBody) freshPlugin) =
      (some ⟨[("retry.out1", ⟨2⟩), ("queue.out1", ⟨5⟩), ("size.out1", ⟨1024⟩)]⟩, none) := by
  have hf : fetchFluentMetrics (respondingStages 500 scenarioBody) freshPlugin
      = (scenarioPlugin.Metrics, none) := by
    rw [fetchFluentMetrics_of_body _ _ { StatusCode := 500, Body := scenarioBody }
      scenarioBody rfl rfl, jsonUnmarshal_scenarioBody]
  have hp : Prepare (respondingStages 500 scenarioBody) freshPlugin
      = { freshPlugin with Metrics := scenarioPlugin.Metrics, Err := none } := by
    simp only [Prepare, hf]
  refine ⟨?_, ?_, ?_, ?_⟩
  · unfold nonSuccess
    decide
  · rw [hp]
  · rw [hp]
  · rw [hp]
    decide

/-- C15, amended. The status code of the response is never read: replacing it
by any other code changes neither the result of `fetchFluentMetrics` nor the
plugin `Prepare` leaves. A fetch fails, whatever the status, exactly in three
cases: the GET fails, the body cannot be read, or the body fails to decode;
`Prepare` then leaves that error in `Err` and no records, and `FetchMetrics`
returns that error and no map. A response whose body decodes leaves `Err` nil
and the decoded records in `Metrics`. -/
theorem status_code_not_inspected {Stream Bytes : Type} (s : Stages Stream Bytes)
    (p : Plugin) (code : Int) :
    fetchFluentMetrics (withStatus s code) p = fetchFluentMetrics s p ∧
    Prepare (withStatus s code) p = Prepare s p ∧
    (∀ err, s.httpGet p.Target = .error err →
      (Prepare s p).Err = some err ∧ (Prepare s p).Metrics = [] ∧
      FetchMetrics (Prepare s p) = (none, some err)) ∧
    (∀ resp err, s.httpGet p.Target = .ok resp → s.readAll resp.Body = .error err →
      (Prepare s p).Err = some err ∧ (Prepare s p).Metrics = [] ∧
      FetchMetrics (Prepare s p) = (none, some err)) ∧
    (∀ resp body err, s.httpGet p.Target = .ok resp → s.readAll resp.Body = .ok body →
      s.jsonUnmarshal body { Metrics := [] } = .error err →
      (Prepare s p).Err = some err ∧ (Prepare s p).Metrics = [] ∧
      FetchMetrics (Prepare s p) = (none, some err)) ∧
    (∀ resp body metrics, s.httpGet p.Target = .ok resp → s.readAll resp.Body = .ok body →
      s.jsonUnmarshal body { Metrics := [] } = .ok metrics →
      (Prepare s p).Err = none ∧ (Prepare s p).Metrics = metrics.Metrics) ∧
    ((Prepare s p).Err ≠ none ↔
      ((∃ err, s.httpGet p.Target = .error err) ∨
       (∃ resp err, s.httpGet p.Target = .ok resp ∧ s.readAll resp.Body = .error err) ∨
       (∃ resp body err, s.httpGet p.Target = .ok resp ∧ s.readAll resp.Body = .ok body ∧
          s.jsonUnmarshal body { Metrics := [] } = .error err))) := by
  have h1 : fetchFluentMetrics (withStatus s code) p = fetchFluentMetrics s p := by
    cases h : s.httpGet p.Target with
    | error err => simp [fetchFluentMetrics, withStatus, h]
    | ok resp => simp [fetchFluentMetrics, withStatus, h]
  have h2 : (Prepare s p).Err ≠ none ↔
      ((∃ err, s.httpGet p.Target = .error err) ∨
       (∃ resp err, s.httpGet p.Target = .ok resp ∧ s.readAll resp.Body = .error err) ∨
       (∃ resp body err, s.httpGet p.Target = .ok resp ∧ s.readAll resp.Body = .ok body ∧
          s.jsonUnmarshal body { Metrics := [] } = .error err)) := by
    cases hg : s.httpGet p.Target with
    | error err => simp [Prepare, fetchFluentMetrics, hg]
    | ok resp =>
      cases hr : s.readAll resp.Body with
      | error err => simp [Prepare, fetchFluentMetrics, hg, hr]
      | ok body =>
        cases hd : s.jsonUnmarshal body { Metrics := [] } with
        | error err => simp [Prepare, fetchFluentMetrics, hg, hr, hd]
        | ok metrics => simp [Prepare, fetchFluentMetrics, hg, hr, hd]
  refine ⟨h1, by simp only [Prepare, h1], ?_, ?_, ?_, ?_, h2⟩
  · intro err hget
    have hf : fetchFluentMetrics s p = ([], some err) := by
      simp [fetchFluentMetrics, hget]
    simp [Prepare, FetchMetrics, hf]
  · intro resp err hget hread
    have hf : fetchFluentMetrics s p = ([], some err) := by
      simp [fetchFluentMetrics, hget, hread]
    simp [Prepare, FetchMetrics, hf]
  · intro resp body err hget hread hdec
    have hf : fetchFluentMetrics s p = ([], some err) := by
      simp [fetchFluentMetrics, hget, hread, hdec]
    simp [Prepare, FetchMetrics, hf]
  · intro resp body metrics hget hread hdec
    have hf : fetchFluentMetrics s p = (metrics.Metrics, none) := by
      simp [fetchFluentMetrics, hget, hread, hdec]
    simp [Prepare, hf]

/-- The cases of `status_code_not_inspected` occur: the scenario body is decoded
to the same records under status 200 and under status 500; a body that cannot
be read and a body that is an error page leave `Err` non-nil under status 500,
and `FetchMetrics` then returns no map. -/
theorem status_code_not_inspected_witness :
    fetchFluentMetrics (withStatus (respondingStages 200 scenarioBody) 500) freshPlugin
      = fetchFluentMetrics (respondingStages 200 scenarioBody) freshPlugin ∧
    ((Prepare (truncatingStages 500) freshPlugin).Err = some ⟨"unexpected EOF"⟩ ∧
      (Prepare (truncatingStages 500) freshPlugin).Metrics = [] ∧
      FetchMetrics (Prepare (truncatingStages 500) freshPlugin)
        = (none, some ⟨"unexpected EOF"⟩)) ∧
    (∃ err, (Prepare (respondingStages 500 errorPageBody) freshPlugin).Err = some err ∧
      (Prepare (respondingStages 500 errorPageBody) freshPlugin).Metrics = [] ∧
      FetchMetrics (Prepare (respondingStages 500 errorPageBody) freshPlugin)
        = (none, some err)) :=
  ⟨(status_code_not_inspected (respondingStages 200 scenarioBody) freshPlugin 500).1,
    (status_code_not_inspected (truncatingStages 500) freshPlugin 500).2.2.2.1
      { StatusCode := 500, Body := "" } ⟨"unexpected EOF"⟩ rfl rfl,
    ⟨_, (status_code_not_inspected (respondingStages 500 errorPageBody) freshPlugin
      500).2.2.2.2.1
      { StatusCode := 500, Body := errorPageBody } errorPageBody (libraryError errorPageBody)
      rfl rfl unmarshal_errorPageBody⟩⟩

/-- C16. With no stored fetch error, the keys of the map returned by
`FetchMetrics` are exactly the names of the descriptors of the graph
`fluentd.buffer` returned by `GraphDefinition` for the same plugin. -/
theorem keys_eq_descriptor_names (p : Plugin) (hErr : p.Err = none) :
    ∃ (m : GoMap Float64) (g : MpGraphs),
      FetchMetrics p = (some m, none) ∧
      (GraphDefinition p).get "fluentd.buffer" = some g ∧
      ∀ k : String, k ∈ m.keys ↔ k ∈ g.Metrics.map (fun d => d.Name) := by
  refine ⟨p.Metrics.foldl fetchStep GoMap.empty, _, by simp [FetchMetrics, hErr],
    get_GraphDefinition p, ?_⟩
  intro k
  rw [mem_keys_foldl]
  simp only [GoMap.not_mem_keys_empty, false_or, List.mem_map, List.mem_flatMap,
    List.mem_filter]
  constructor
  · rintro ⟨r, hr, he, hk⟩
    rw [← map_name_descriptorsOf, List.mem_map] at hk
    obtain ⟨d, hd, rfl⟩ := hk
    exact ⟨d, ⟨r, ⟨hr, he⟩, hd⟩, rfl⟩
  · rintro ⟨d, ⟨r, ⟨hr, he⟩, hd⟩, rfl⟩
    refine ⟨r, hr, he, ?_⟩
    rw [← map_name_descriptorsOf]
    exact List.mem_map_of_mem _ hd

/-- The hypothesis of `keys_eq_descriptor_names` holds on the scenario snapshot. -/
theorem keys_eq_descriptor_names_witness :
    scenarioPlugin.Err = none ∧
    ∃ (m : GoMap Float64) (g : MpGraphs),
      FetchMetrics scenarioPlugin = (some m, none) ∧
      (GraphDefinition scenarioPlugin).get "fluentd.buffer" = some g ∧
      ∀ k : String, k ∈ m.keys ↔ k ∈ g.Metrics.map (fun d => d.Name) :=
  ⟨rfl, keys_eq_descriptor_names scenarioPlugin rfl⟩

/-- C17. Keys built with different prefixes never coincide and keys with the
same prefix coincide only for equal ids; and with no stored fetch error the
map returned by `FetchMetrics` has exactly three entries per distinct id among
the eligible records of the snapshot. -/
theorem FetchMetrics_len (p : Plugin) (hErr : p.Err = none) :
    (∀ a b : String,
      "retry." ++ a ≠ "queue." ++ b ∧ "retry." ++ a ≠ "size." ++ b ∧
      "queue." ++ a ≠ "size." ++ b ∧
      ("retry." ++ a = "retry." ++ b → a = b) ∧
      ("queue." ++ a = "queue." ++ b → a = b) ∧
      ("size." ++ a = "size." ++ b → a = b)) ∧
    ∃ m : GoMap Float64, FetchMetrics p = (some m, none) ∧
      m.len = 3 * ((p.Metrics.filter isEnableFluentMetric).map (fun r => r.Id)).dedup.length := by
  refine ⟨fun a b => ⟨retry_ne_queue a b, retry_ne_size a b, queue_ne_size a b,
    append_left_cancel, append_left_cancel, append_left_cancel⟩, ?_⟩
  refine ⟨p.Metrics.foldl fetchStep GoMap.empty, by simp [FetchMetrics, hErr], ?_⟩
  have h := length_keys_foldl p.Metrics
  simp only [GoMap.keys, List.length_map] at h
  exact h

/-- The hypothesis of `FetchMetrics_len` holds on the snapshot with a repeated
id: two eligible records, one distinct id, three entries. -/
theorem FetchMetrics_len_witness :
    duplicatePlugin.Err = none ∧
    ∃ m : GoMap Float64, FetchMetrics duplicatePlugin = (some m, none) ∧
      m.len = 3 * ((duplicatePlugin.Metrics.filter isEnableFluentMetric).map
        (fun r => r.Id)).dedup.length :=
  ⟨rfl, (FetchMetrics_len duplicatePlugin rfl).2⟩

end FluentdMonitor
